import Mathlib

/-!
Shallow embedding of the event-registration, attendance and QR check-in
subsystem of the mosque event-management backend (EventService,
AttendanceService, QRCodeService), together with proofs about the
spec's claims for that subsystem.

Conventions of the embedding:
* The relational store is a `DB` value: one list per table.  Prisma
  auto-generated columns that no modelled operation reads (`id`,
  `createdAt`, `updatedAt`, `registrationDate`) are omitted from rows.
* JavaScript `Date` values are modelled as `Nat` milliseconds since the
  epoch (`Date.now()` is a `now : Nat` argument of each operation).
* Counters typed `Int` in the schema stay `Int` (`currentAttendees` can
  be driven negative by a decrement, so `Nat` would be unfaithful).
* JS truthiness is translated explicitly: `event.maxAttendees && ...`
  is falsy for `null` and for `0`; a nullable `Date` is truthy exactly
  when non-null; `notes || old` treats the empty string as falsy.
* A thrown `createError` is an `Except.error` carrying an `ApiError`
  that names the error condition; success returns the updated `DB`.
* `prisma.$transaction([...])` blocks become single Lean functions
  (`regCommit`): the writes inside them are indivisible.  The reads
  and checks before such a block are a separate function, so that
  interleavings of two requests can be expressed faithfully.
-/

namespace MosqueSpec

/-- A user row: only the columns the modelled services read. -/
structure UserRow where
  id : String
  role : String := "USER"
deriving Repr, DecidableEq

/-- An event row (prisma model `Event`), restricted to columns the
modelled services read or write. -/
structure Event where
  id : String
  title : String := ""
  description : Option String := none
  startDate : Nat
  endDate : Nat
  location : String := ""
  category : String := "COMMUNITY"
  imageUrl : Option String := none
  maxAttendees : Option Int := none
  currentAttendees : Int := 0
  registrationRequired : Bool := false
  registrationDeadline : Option Nat := none
  isActive : Bool := true
  createdById : String := ""
deriving Repr, DecidableEq

/-- An event-registration row (prisma model `EventRegistration`),
keyed by `(eventId, userId)`. -/
structure Registration where
  eventId : String
  userId : String
  status : String
deriving Repr, DecidableEq

/-- An attendance row (prisma model `Attendance`), keyed by
`(eventId, userId)`. -/
structure Attendance where
  eventId : String
  userId : String
  checkInTime : Option Nat := none
  checkOutTime : Option Nat := none
  status : String := "CHECKED_IN"
  notes : Option String := none
deriving Repr, DecidableEq

/-- A QR-code row (prisma model `QRCode`).  The `id` primary key is
omitted; the one `update`-by-id site (`revokeQRCode`) is modelled
positionally on the row that `findFirst` returned. -/
structure QRCodeRow where
  eventId : String
  qrData : String
  type : String := "secure"
  expiresAt : Nat
  isActive : Bool
deriving Repr, DecidableEq

/-- The relational store. -/
structure DB where
  users : List UserRow := []
  events : List Event := []
  registrations : List Registration := []
  attendances : List Attendance := []
  qrcodes : List QRCodeRow := []
deriving Repr, DecidableEq

/-- The error conditions the services surface via `createError`. -/
inductive ApiError where
  | eventNotFound
  | forbidden
  | eventInactive
  | registrationNotRequired
  | eventAlreadyStarted
  | deadlinePassed
  | alreadyRegistered
  | capacityExceeded
  | registrationNotFound
  | eventNotStarted
  | eventEnded
  | userNotRegistered
  | registrationNotConfirmed
  | alreadyCheckedIn
  | attendanceNotFound
  | notCheckedIn
  | alreadyCheckedOut
  | invalidTokenFormat
  | tokenEventMismatch
  | tokenNotFound
  | qrNotFound
  | tokenExpired
  | noActiveToken
deriving Repr, DecidableEq

/-- `prisma.user.findUnique({ where: { id } })`. -/
def findUser (db : DB) (id : String) : Option UserRow :=
  db.users.find? (fun u => u.id == id)

/-- `prisma.event.findUnique({ where: { id } })`. -/
def findEvent (db : DB) (id : String) : Option Event :=
  db.events.find? (fun e => e.id == id)

/-- `prisma.eventRegistration.findUnique({ where: { eventId_userId } })`. -/
def findRegistration (db : DB) (eventId userId : String) : Option Registration :=
  db.registrations.find? (fun r => r.eventId == eventId && r.userId == userId)

/-- `prisma.attendance.findUnique({ where: { eventId_userId } })`. -/
def findAttendance (db : DB) (eventId userId : String) : Option Attendance :=
  db.attendances.find? (fun a => a.eventId == eventId && a.userId == userId)

/-- `prisma.event.update({ where: { id } , data })`: rewrite the row
with the given id. -/
def updateEvents (events : List Event) (id : String) (f : Event → Event) : List Event :=
  events.map (fun e => if e.id == id then f e else e)

/-- `prisma.attendance.update({ where: { eventId_userId }, data })`. -/
def updateAttendances (atts : List Attendance) (eventId userId : String)
    (f : Attendance → Attendance) : List Attendance :=
  atts.map (fun a => if a.eventId == eventId && a.userId == userId then f a else a)

/-- JS truthiness of `event.maxAttendees && event.currentAttendees >=
event.maxAttendees`: a `null` or `0` capacity short-circuits to
"not full". -/
def capacityFull (e : Event) : Bool :=
  match e.maxAttendees with
  | some m => m != 0 && decide (m ≤ e.currentAttendees)
  | none => false

/-- `event.registrationDeadline && event.registrationDeadline <= new
Date()` (EventService.registerForEvent): inclusive comparison. -/
def deadlineElapsedIncl (e : Event) (now : Nat) : Bool :=
  match e.registrationDeadline with
  | some d => decide (d ≤ now)
  | none => false

/-- `event.registrationDeadline && new Date() > event.registrationDeadline`
(QRCodeService auto-registration): strict comparison. -/
def deadlineElapsedStrict (e : Event) (now : Nat) : Bool :=
  match e.registrationDeadline with
  | some d => decide (d < now)
  | none => false

/-- JS `a || b` on optional strings (`notes || existing.notes`): both
`undefined` and the empty string fall back to `b`. -/
def jsStrOr (a b : Option String) : Option String :=
  match a with
  | some s => if s = "" then b else some s
  | none => b

/-- A prisma `data: { field }` entry with an optional value: an
`undefined` value leaves the column unchanged. -/
def prismaSet (a b : Option String) : Option String :=
  match a with
  | some s => some s
  | none => b

/-! ## Registration ledger (EventService.registerForEvent / cancelRegistration)

`registerForEvent` is split at its `prisma.$transaction` boundary:
`regChecks` is everything before the transaction (the reads and
precondition checks, each an `await` suspension point), `regCommit` is
the transaction itself (create registration + increment counter,
indivisible).  `registerForEvent` is their sequential composition. -/

/-- The pre-transaction reads and checks of
`EventService.registerForEvent`, in source order. -/
def regChecks (db : DB) (eventId userId : String) (now : Nat) : Except ApiError Unit :=
  match findEvent db eventId with
  | none => .error .eventNotFound
  | some event =>
    if !event.isActive then .error .eventInactive
    else if !event.registrationRequired then .error .registrationNotRequired
    else if event.startDate ≤ now then .error .eventAlreadyStarted
    else if deadlineElapsedIncl event now then .error .deadlinePassed
    else if (findRegistration db eventId userId).isSome then .error .alreadyRegistered
    else if capacityFull event then .error .capacityExceeded
    else .ok ()

/-- The `prisma.$transaction([create CONFIRMED registration, increment
currentAttendees])` block shared verbatim by `registerForEvent`,
`checkInWithToken` and `validateAndCheckIn`. -/
def regCommit (db : DB) (eventId userId : String) : DB :=
  { db with
    registrations := db.registrations ++ [{ eventId, userId, status := "CONFIRMED" }],
    events := updateEvents db.events eventId
      (fun e => { e with currentAttendees := e.currentAttendees + 1 }) }

/-- `EventService.registerForEvent`. -/
def registerForEvent (db : DB) (eventId userId : String) (now : Nat) : Except ApiError DB :=
  match regChecks db eventId userId now with
  | .error e => .error e
  | .ok _ => .ok (regCommit db eventId userId)

/-- `EventService.cancelRegistration`: delete the registration and
decrement the counter in one transaction. -/
def cancelRegistration (db : DB) (eventId userId : String) (now : Nat) : Except ApiError DB :=
  match findRegistration db eventId userId with
  | none => .error .registrationNotFound
  | some _ =>
    match findEvent db eventId with
    | none => .error .eventNotFound
    | some event =>
      if event.startDate ≤ now then .error .eventAlreadyStarted
      else .ok { db with
        registrations := db.registrations.filter
          (fun r => !(r.eventId == eventId && r.userId == userId)),
        events := updateEvents db.events eventId
          (fun e => { e with currentAttendees := e.currentAttendees - 1 }) }

/-! ## Event update (EventService.updateEvent) -/

/-- `UpdateEventDto`: every field optional; an absent field leaves the
column unchanged (prisma skips `undefined`). -/
structure UpdateEventDto where
  title : Option String := none
  description : Option String := none
  startDate : Option Nat := none
  endDate : Option Nat := none
  location : Option String := none
  category : Option String := none
  imageUrl : Option String := none
  maxAttendees : Option Int := none
  registrationRequired : Option Bool := none
  registrationDeadline : Option Nat := none
  isActive : Option Bool := none
deriving Repr, DecidableEq

/-- Apply an `UpdateEventDto` to an event row (`prisma.event.update`
with `data: updateData`). -/
def applyUpdate (e : Event) (u : UpdateEventDto) : Event :=
  { e with
    title := u.title.getD e.title,
    description := match u.description with | some v => some v | none => e.description,
    startDate := u.startDate.getD e.startDate,
    endDate := u.endDate.getD e.endDate,
    location := u.location.getD e.location,
    category := u.category.getD e.category,
    imageUrl := match u.imageUrl with | some v => some v | none => e.imageUrl,
    maxAttendees := match u.maxAttendees with | some v => some v | none => e.maxAttendees,
    registrationRequired := u.registrationRequired.getD e.registrationRequired,
    registrationDeadline :=
      match u.registrationDeadline with | some v => some v | none => e.registrationDeadline,
    isActive := u.isActive.getD e.isActive }

/-- `EventService.updateEvent`: permission checks, then the update.
No capacity- or counter-related re-validation is performed. -/
def updateEvent (db : DB) (id : String) (u : UpdateEventDto)
    (currentUserId currentUserRole : String) : Except ApiError DB :=
  match findEvent db id with
  | none => .error .eventNotFound
  | some e =>
    if currentUserRole == "USER" && e.createdById != currentUserId then .error .forbidden
    else if currentUserRole == "SUBADMIN"
        && ((findUser db e.createdById).map UserRow.role == some "ADMIN") then .error .forbidden
    else .ok { db with events := updateEvents db.events id (fun ev => applyUpdate ev u) }

/-! ## Attendance tracker (AttendanceService.checkIn/checkOut,
EventService.checkIn/checkOut/markAttendance) -/

/-- `AttendanceService.checkIn`: event checks, CONFIRMED-registration
check when registration is required, double-check-in guard, then
update-or-create of the attendance row. -/
def attendanceCheckIn (db : DB) (eventId userId : String) (notes : Option String)
    (now : Nat) : Except ApiError DB :=
  match findEvent db eventId with
  | none => .error .eventNotFound
  | some event =>
    if !event.isActive then .error .eventInactive
    else if now < event.startDate then .error .eventNotStarted
    else if event.endDate < now then .error .eventEnded
    else
      match (if event.registrationRequired then
               match findRegistration db eventId userId with
               | none => some ApiError.userNotRegistered
               | some r => if r.status != "CONFIRMED" then some .registrationNotConfirmed else none
             else none) with
      | some err => .error err
      | none =>
        match findAttendance db eventId userId with
        | some att =>
          if att.checkInTime.isSome then .error .alreadyCheckedIn
          else
            let atts := updateAttendances db.attendances eventId userId
              (fun a => { a with checkInTime := some now, status := "CHECKED_IN",
                                 notes := jsStrOr notes a.notes })
            .ok { db with attendances := atts }
        | none =>
          .ok { db with attendances := db.attendances ++
            [{ eventId, userId, checkInTime := some now, checkOutTime := none,
               status := "CHECKED_IN", notes }] }

/-- `EventService.checkIn`: same shape as `AttendanceService.checkIn`
but the registration check only tests existence (no status check), and
the update writes `notes` as given (an `undefined` value is skipped by
prisma). -/
def eventCheckIn (db : DB) (eventId userId : String) (notes : Option String)
    (now : Nat) : Except ApiError DB :=
  match findEvent db eventId with
  | none => .error .eventNotFound
  | some event =>
    if !event.isActive then .error .eventInactive
    else if now < event.startDate then .error .eventNotStarted
    else if event.endDate < now then .error .eventEnded
    else if event.registrationRequired && (findRegistration db eventId userId).isNone then
      .error .userNotRegistered
    else
      match findAttendance db eventId userId with
      | some att =>
        if att.checkInTime.isSome then .error .alreadyCheckedIn
        else
          let atts := updateAttendances db.attendances eventId userId
            (fun a => { a with checkInTime := some now, status := "CHECKED_IN",
                               notes := prismaSet notes a.notes })
          .ok { db with attendances := atts }
      | none =>
        .ok { db with attendances := db.attendances ++
          [{ eventId, userId, checkInTime := some now, checkOutTime := none,
             status := "CHECKED_IN", notes }] }

/-- `EventService.markAttendance`: same checks as
`AttendanceService.checkIn` (including the CONFIRMED-status check) but
no notes parameter; the update touches only `checkInTime` and
`status`. -/
def markAttendance (db : DB) (eventId userId : String) (now : Nat) : Except ApiError DB :=
  match findEvent db eventId with
  | none => .error .eventNotFound
  | some event =>
    if !event.isActive then .error .eventInactive
    else if now < event.startDate then .error .eventNotStarted
    else if event.endDate < now then .error .eventEnded
    else
      match (if event.registrationRequired then
               match findRegistration db eventId userId with
               | none => some ApiError.userNotRegistered
               | some r => if r.status != "CONFIRMED" then some .registrationNotConfirmed else none
             else none) with
      | some err => .error err
      | none =>
        match findAttendance db eventId userId with
        | some att =>
          if att.checkInTime.isSome then .error .alreadyCheckedIn
          else
            let atts := updateAttendances db.attendances eventId userId
              (fun a => { a with checkInTime := some now, status := "CHECKED_IN" })
            .ok { db with attendances := atts }
        | none =>
          .ok { db with attendances := db.attendances ++
            [{ eventId, userId, checkInTime := some now, checkOutTime := none,
               status := "CHECKED_IN", notes := none }] }

/-- `AttendanceService.checkOut` (EventService.checkOut is line-for-line
the same logic): requires an attendance row with a check-in time and no
check-out time, then records the check-out. -/
def checkOut (db : DB) (eventId userId : String) (notes : Option String)
    (now : Nat) : Except ApiError DB :=
  match findAttendance db eventId userId with
  | none => .error .attendanceNotFound
  | some att =>
    if att.checkInTime.isNone then .error .notCheckedIn
    else if att.checkOutTime.isSome then .error .alreadyCheckedOut
    else
      let atts := updateAttendances db.attendances eventId userId
        (fun a => { a with checkOutTime := some now, status := "CHECKED_OUT",
                           notes := jsStrOr notes a.notes })
      .ok { db with attendances := atts }

/-! ## QR token service (QRCodeService) -/

/-- The ambient context of `QRCodeService`: the HMAC-SHA256 primitive
from `crypto` (keyed by a secret, applied to a payload, producing a hex
digest) and the server secret `process.env.QR_SECRET`. -/
structure QRCtx where
  hmac : String → String → String
  secret : String

/-- JS `String.prototype.split` with a single-character separator,
on a list of characters. -/
def splitAux (sep : Char) : List Char → List (List Char)
  | [] => [[]]
  | c :: cs =>
    let rest := splitAux sep cs
    if c = sep then [] :: rest
    else
      match rest with
      | [] => [[c]]
      | r :: rs => (c :: r) :: rs

/-- JS `s.split(sep)` for a one-character separator. -/
def jsSplit (s : String) (sep : Char) : List String :=
  (splitAux sep s.data).map (fun l => String.mk l)

/-- `prisma.qRCode.findFirst({ where: { eventId, qrData, isActive: true } })`. -/
def findActiveQR (db : DB) (eventId token : String) : Option QRCodeRow :=
  db.qrcodes.find? (fun q => q.eventId == eventId && q.qrData == token && q.isActive)

/-- `QRCodeService.generateEventQR`: deactivate every active QR row of
the event, build the signed token `event-checkin:<eventId>:<now>:<hmac>`,
persist it as the new active row, and return it (the data-URL rendering
of the QR image is presentation only and not modelled). -/
def generateEventQR (ctx : QRCtx) (db : DB) (eventId : String)
    (expirationHours : Nat) (now : Nat) : Except ApiError (DB × String) :=
  match findEvent db eventId with
  | none => .error .eventNotFound
  | some event =>
    if !event.isActive then .error .eventInactive
    else
      let deactivated := db.qrcodes.map
        (fun q => if q.eventId == eventId && q.isActive then { q with isActive := false } else q)
      let expiresAt := now + expirationHours * 3600000
      let secureData := "event-checkin:" ++ eventId ++ ":" ++ toString now
      let secureToken := secureData ++ ":" ++ ctx.hmac ctx.secret secureData
      .ok ({ db with qrcodes := deactivated ++
              [{ eventId, qrData := secureToken, type := "secure", expiresAt, isActive := true }] },
           secureToken)

/-- `QRCodeService.validateCheckinToken`: parse (at least four
colon-separated segments, `event-checkin` head, eventId match), look up
an active row with this exact `qrData`, check expiry, then re-validate
the event's active/time-window state.  No cryptographic check occurs. -/
def validateCheckinToken (ctx : QRCtx) (db : DB) (eventId token : String)
    (now : Nat) : Except ApiError Event :=
  let parts := jsSplit token ':'
  if parts.length < 4 || parts[0]? != some "event-checkin" then .error .invalidTokenFormat
  else if parts[1]? != some eventId then .error .tokenEventMismatch
  else
    match findActiveQR db eventId token with
    | none => .error .tokenNotFound
    | some q =>
      if q.expiresAt < now then .error .tokenExpired
      else
        match findEvent db eventId with
        | none => .error .eventNotFound
        | some event =>
          if !event.isActive then .error .eventInactive
          else if now < event.startDate then .error .eventNotStarted
          else if event.endDate < now then .error .eventEnded
          else .ok event

/-- The auto-registration step shared by `checkInWithToken` and
`validateAndCheckIn`: when registration is required and the user has no
registration, check the deadline (strictly) and the capacity (JS
truthiness), then run the registration transaction. -/
def autoRegister (db : DB) (event : Event) (eventId userId : String)
    (now : Nat) : Except ApiError DB :=
  if event.registrationRequired then
    match findRegistration db eventId userId with
    | some _ => .ok db
    | none =>
      if deadlineElapsedStrict event now then .error .deadlinePassed
      else if capacityFull event then .error .capacityExceeded
      else .ok (regCommit db eventId userId)
  else .ok db

/-- `QRCodeService.checkInWithToken`: validate the token, re-fetch the
event, guard against double check-in, auto-register if needed, then
write the attendance row. -/
def checkInWithToken (ctx : QRCtx) (db : DB) (eventId token userId : String)
    (now : Nat) : Except ApiError DB :=
  match validateCheckinToken ctx db eventId token now with
  | .error e => .error e
  | .ok _ =>
    match findEvent db eventId with
    | none => .error .eventNotFound
    | some event =>
      match findAttendance db eventId userId with
      | some att =>
        if att.checkInTime.isSome then .error .alreadyCheckedIn
        else
          match autoRegister db event eventId userId now with
          | .error e => .error e
          | .ok db₁ =>
            let atts := updateAttendances db₁.attendances eventId userId
              (fun a => { a with checkInTime := some now, status := "CHECKED_IN" })
            .ok { db₁ with attendances := atts }
      | none =>
        match autoRegister db event eventId userId now with
        | .error e => .error e
        | .ok db₁ => .ok { db₁ with attendances := db₁.attendances ++
            [{ eventId, userId, checkInTime := some now, checkOutTime := none,
               status := "CHECKED_IN", notes := none }] }

/-- `QRCodeService.validateAndCheckIn`: the self-service QR path.  The
event id comes from the token itself (`parts[1]`); the format check only
requires two segments. -/
def validateAndCheckIn (ctx : QRCtx) (db : DB) (qrData userId : String)
    (now : Nat) : Except ApiError DB :=
  let parts := jsSplit qrData ':'
  if parts.length < 2 || parts[0]? != some "event-checkin" then .error .invalidTokenFormat
  else
    match parts[1]? with
    | none => .error .invalidTokenFormat
    | some eventId =>
      match findActiveQR db eventId qrData with
      | none => .error .qrNotFound
      | some q =>
        if q.expiresAt < now then .error .tokenExpired
        else
          match findEvent db eventId with
          | none => .error .eventNotFound
          | some event =>
            if !event.isActive then .error .eventInactive
            else if now < event.startDate then .error .eventNotStarted
            else if event.endDate < now then .error .eventEnded
            else
              match findAttendance db eventId userId with
              | some att =>
                if att.checkInTime.isSome then .error .alreadyCheckedIn
                else
                  match autoRegister db event eventId userId now with
                  | .error e => .error e
                  | .ok db₁ =>
                    let atts := updateAttendances db₁.attendances eventId userId
                      (fun a => { a with checkInTime := some now, status := "CHECKED_IN" })
                    .ok { db₁ with attendances := atts }
              | none =>
                match autoRegister db event eventId userId now with
                | .error e => .error e
                | .ok db₁ => .ok { db₁ with attendances := db₁.attendances ++
                    [{ eventId, userId, checkInTime := some now, checkOutTime := none,
                       status := "CHECKED_IN", notes := none }] }

/-- Deactivate the first active QR row of the event (the row
`findFirst` returns, updated through its unique id). -/
def deactivateFirst (l : List QRCodeRow) (eventId : String) : List QRCodeRow :=
  match l with
  | [] => []
  | q :: qs =>
    if q.eventId == eventId && q.isActive then { q with isActive := false } :: qs
    else q :: deactivateFirst qs eventId

/-- `QRCodeService.revokeQRCode`. -/
def revokeQRCode (db : DB) (eventId : String) : Except ApiError DB :=
  match db.qrcodes.find? (fun q => q.eventId == eventId && q.isActive) with
  | none => .error .noActiveToken
  | some _ => .ok { db with qrcodes := deactivateFirst db.qrcodes eventId }

/-- `QRCodeService.cleanupExpiredQRCodes`. -/
def cleanupExpiredQRCodes (db : DB) (now : Nat) : DB :=
  let rows := db.qrcodes.map
    (fun q => if decide (q.expiresAt < now) && q.isActive then { q with isActive := false } else q)
  { db with qrcodes := rows }

/-! ## The public operation alphabet -/

/-- One public operation of the modelled subsystem. -/
inductive Op where
  | update (id : String) (u : UpdateEventDto) (uid role : String)
  | register (eventId userId : String) (now : Nat)
  | cancel (eventId userId : String) (now : Nat)
  | checkInAttendance (eventId userId : String) (notes : Option String) (now : Nat)
  | checkInEvent (eventId userId : String) (notes : Option String) (now : Nat)
  | mark (eventId userId : String) (now : Nat)
  | checkout (eventId userId : String) (notes : Option String) (now : Nat)
  | qrGenerate (eventId : String) (hours : Nat) (now : Nat)
  | qrCheckInToken (eventId token userId : String) (now : Nat)
  | qrSelf (qrData userId : String) (now : Nat)
  | qrRevoke (eventId : String)
  | qrCleanup (now : Nat)

/-- Run one public operation against the store. -/
def applyOp (ctx : QRCtx) (db : DB) : Op → Except ApiError DB
  | .update id u uid role => updateEvent db id u uid role
  | .register e u now => registerForEvent db e u now
  | .cancel e u now => cancelRegistration db e u now
  | .checkInAttendance e u notes now => attendanceCheckIn db e u notes now
  | .checkInEvent e u notes now => eventCheckIn db e u notes now
  | .mark e u now => markAttendance db e u now
  | .checkout e u notes now => checkOut db e u notes now
  | .qrGenerate e h now =>
      match generateEventQR ctx db e h now with
      | .error er => .error er
      | .ok (db', _) => .ok db'
  | .qrCheckInToken e t u now => checkInWithToken ctx db e t u now
  | .qrSelf q u now => validateAndCheckIn ctx db q u now
  | .qrRevoke e => revokeQRCode db e
  | .qrCleanup now => .ok (cleanupExpiredQRCodes db now)

/-- Whether the operation is the event-update endpoint. -/
def Op.isEventUpdate : Op → Bool
  | .update _ _ _ _ => true
  | _ => false

/-- Reachability by successful public operations other than event
update. -/
inductive ReachNoUpdate (ctx : QRCtx) : DB → DB → Prop where
  | refl (db : DB) : ReachNoUpdate ctx db db
  | step {db db₁ db₂ : DB} {op : Op} : ReachNoUpdate ctx db db₁ →
      op.isEventUpdate = false → applyOp ctx db₁ op = .ok db₂ → ReachNoUpdate ctx db db₂

/-! ## Invariants -/

/-- Key of a registration row (`@@unique([eventId, userId])`). -/
def regKey (r : Registration) : String × String := (r.eventId, r.userId)

/-- Number of registration rows of an event. -/
def regCount (db : DB) (eid : String) : Nat :=
  db.registrations.countP (fun r => r.eventId == eid)

/-- The denormalized attendee counter of the row equals the number of
registration rows of the event. -/
def counterOK (db : DB) (e : Event) : Prop :=
  e.currentAttendees = (regCount db e.id : Int)

/-- When a capacity is set and nonzero (the JS-truthy case), the
counter is within it. -/
def capOK (e : Event) : Prop :=
  ∀ m, e.maxAttendees = some m → m = 0 ∨ e.currentAttendees ≤ m

instance (e : Event) : Decidable (capOK e) :=
  match h : e.maxAttendees with
  | none => isTrue (by intro m hm; rw [h] at hm; cases hm)
  | some m₀ => decidable_of_iff (m₀ = 0 ∨ e.currentAttendees ≤ m₀)
      (by constructor
          · intro hd m hm; rw [h] at hm; cases hm; exact hd
          · intro hall; exact hall m₀ h)

/-- The capacity bound exactly as the spec states it: whenever
`maxAttendees` is set (including to 0), `currentAttendees` stays within
it. -/
def capAtMost (e : Event) : Prop :=
  ∀ m, e.maxAttendees = some m → e.currentAttendees ≤ m

instance (e : Event) : Decidable (capAtMost e) :=
  match h : e.maxAttendees with
  | none => isTrue (by intro m hm; rw [h] at hm; cases hm)
  | some m₀ => decidable_of_iff (e.currentAttendees ≤ m₀)
      (by constructor
          · intro hd m hm; rw [h] at hm; cases hm; exact hd
          · intro hall; exact hall m₀ h)

/-- The claim's invariant, verbatim: `0 <= currentAttendees <=
maxAttendees` whenever `maxAttendees` is set. -/
def claimCapInv (db : DB) : Prop :=
  ∀ e ∈ db.events, 0 ≤ e.currentAttendees ∧ capAtMost e

/-- Well-keyed store: event ids and registration keys are unique (they
are primary/unique keys in the schema). -/
def dbWF (db : DB) : Prop :=
  (db.events.map Event.id).Nodup ∧ (db.registrations.map regKey).Nodup

/-- The inductive registration-ledger invariant: well-keyed store,
counter = number of registrations, counter within any nonzero set
capacity. -/
def ledgerInv (db : DB) : Prop :=
  dbWF db ∧ ∀ e ∈ db.events, counterOK db e ∧ capOK e

instance (db : DB) (e : Event) : Decidable (counterOK db e) := by
  unfold counterOK; infer_instance

instance (db : DB) : Decidable (dbWF db) := by
  unfold dbWF; infer_instance

instance (db : DB) : Decidable (ledgerInv db) := by
  unfold ledgerInv; infer_instance

instance (db : DB) : Decidable (claimCapInv db) := by
  unfold claimCapInv; infer_instance

/-- At most one active QR row per event. -/
def qrInv (db : DB) : Prop :=
  ∀ eid : String, db.qrcodes.countP (fun q => q.eventId == eid && q.isActive) ≤ 1

/-- The attendance pair is in the terminal CHECKED_OUT configuration:
both timestamps set. -/
def checkedOut (db : DB) (eventId userId : String) : Prop :=
  ∃ a, findAttendance db eventId userId = some a ∧
    a.checkInTime.isSome = true ∧ a.checkOutTime.isSome = true

/-- The attendance-table effect of one successful attendance-writing
operation keyed at `(E2, U2)`: the existing row — whose not-yet-checked
-in or not-yet-checked-out guard held — is updated key-preservingly, or
a fresh row is appended, or the table is untouched. -/
def attEffect (db db' : DB) (E2 U2 : String) : Prop :=
  (∃ att, findAttendance db E2 U2 = some att ∧
      (att.checkInTime = none ∨ att.checkOutTime = none) ∧
      ∃ f : Attendance → Attendance,
        (∀ a, (f a).eventId = a.eventId ∧ (f a).userId = a.userId) ∧
        db'.attendances = updateAttendances db.attendances E2 U2 f) ∨
  (∃ row : Attendance, db'.attendances = db.attendances ++ [row]) ∨
  db'.attendances = db.attendances

/-- A string without the token separator. -/
def noColon (s : String) : Prop := (':' : Char) ∉ s.data

instance (s : String) : Decidable (noColon s) := by
  unfold noColon; infer_instance

/-- A stored QR row as `generateEventQR` produces it: the `qrData` is
the signed token of its own event id for some issuance timestamp, and
the segments are separator-free. -/
def QRRowWF (ctx : QRCtx) (q : QRCodeRow) : Prop :=
  ∃ ts : Nat, noColon q.eventId ∧
    noColon (ctx.hmac ctx.secret ("event-checkin:" ++ q.eventId ++ ":" ++ toString ts)) ∧
    q.qrData = "event-checkin:" ++ q.eventId ++ ":" ++ toString ts ++ ":"
      ++ ctx.hmac ctx.secret ("event-checkin:" ++ q.eventId ++ ":" ++ toString ts)

/-- Every stored QR row was produced by `generateEventQR`. -/
def qrStoreWF (ctx : QRCtx) (db : DB) : Prop :=
  ∀ q ∈ db.qrcodes, QRRowWF ctx q

/-! ## Concrete stores used as test vectors in the theorems below -/

/-- A QR context with a fixed stub digest function. -/
def ctxA : QRCtx := ⟨fun _ _ => "aa", "secret-one"⟩

/-- A second QR context with a different secret and digest function. -/
def ctxB : QRCtx := ⟨fun _ _ => "bb", "secret-two"⟩

/-- Event with spare capacity and a nonzero attendee count. -/
def evC1 : Event :=
  { id := "e", startDate := 200, endDate := 1000, maxAttendees := some 5,
    currentAttendees := 2, createdById := "adm" }

def dbC1 : DB :=
  { users := [{ id := "adm", role := "ADMIN" }], events := [evC1],
    registrations := [{ eventId := "e", userId := "r1", status := "CONFIRMED" },
                      { eventId := "e", userId := "r2", status := "CONFIRMED" }] }

/-- Update request that lowers the capacity below the current count. -/
def dtoC1 : UpdateEventDto := { maxAttendees := some 1 }

/-- `dbC1` after `updateEvent` applies `dtoC1`. -/
def dbC1x : DB :=
  { users := [{ id := "adm", role := "ADMIN" }],
    events := [{ id := "e", startDate := 200, endDate := 1000, maxAttendees := some 1,
                 currentAttendees := 2, createdById := "adm" }],
    registrations := [{ eventId := "e", userId := "r1", status := "CONFIRMED" },
                      { eventId := "e", userId := "r2", status := "CONFIRMED" }] }

/-- One-slot event open for registration. -/
def dbC2 : DB :=
  { events := [{ id := "e", startDate := 200, endDate := 1000,
                 registrationRequired := true, maxAttendees := some 1 }] }

/-- `dbC2` after user A registers. -/
def dbC2r : DB :=
  { events := [{ id := "e", startDate := 200, endDate := 1000,
                 registrationRequired := true, maxAttendees := some 1,
                 currentAttendees := 1 }],
    registrations := [{ eventId := "e", userId := "A", status := "CONFIRMED" }] }

/-- Event whose capacity is set to 0 — JS-falsy, so the capacity check
is skipped. -/
def dbC3 : DB :=
  { events := [{ id := "z", startDate := 200, endDate := 1000,
                 registrationRequired := true, maxAttendees := some 0 }] }

/-- Ongoing event whose registration deadline is exactly `now = 100`,
with an active stored check-in token. -/
def evC4 : Event :=
  { id := "d", startDate := 0, endDate := 100000, registrationRequired := true,
    registrationDeadline := some 100 }

def tokC4 : String := "event-checkin:d:50:aa"

def dbC4 : DB :=
  { events := [evC4],
    qrcodes := [{ eventId := "d", qrData := tokC4, expiresAt := 5000, isActive := true }] }

/-- Store with an event but no attendance rows at all. -/
def dbC5 : DB := { events := [{ id := "e", startDate := 0, endDate := 1000 }] }

/-- Ongoing no-registration event, used to drive the attendance state
machine. -/
def dbW5 : DB := { events := [{ id := "e", startDate := 0, endDate := 1000 }] }

/-- The checked-in attendance row the first check-in on `dbW5`
creates (user `u`, millisecond 5). -/
def attW5a : Attendance :=
  { eventId := "e", userId := "u", checkInTime := some 5, checkOutTime := none,
    status := "CHECKED_IN", notes := none }

/-- `dbW5` after checking user `u` in at millisecond 5. -/
def dbW5a : DB := { dbW5 with attendances := [attW5a] }

/-- The row after the check-out at millisecond 7. -/
def attW5b : Attendance :=
  { eventId := "e", userId := "u", checkInTime := some 5, checkOutTime := some 7,
    status := "CHECKED_OUT", notes := none }

/-- `dbW5a` after checking user `u` out at millisecond 7. -/
def dbW5b : DB := { dbW5 with attendances := [attW5b] }

/-- An attendance row that has no check-in time. -/
def attW5n : Attendance :=
  { eventId := "e", userId := "u", checkInTime := none, checkOutTime := none,
    status := "REGISTERED", notes := none }

/-- Store holding an attendance row that has no check-in time. -/
def dbW5n : DB := { dbW5 with attendances := [attW5n] }

/-- Ongoing event requiring registration. -/
def evC6 : Event :=
  { id := "e", startDate := 0, endDate := 1000, registrationRequired := true }

/-- A PENDING (non-CONFIRMED) registration. -/
def regC6 : Registration := { eventId := "e", userId := "u", status := "PENDING" }

/-- Ongoing event requiring registration, with a non-CONFIRMED
registration on file. -/
def dbC6 : DB := { events := [evC6], registrations := [regC6] }

/-- Ongoing event requiring registration, with no registration on
file. -/
def dbC6n : DB := { events := [evC6] }

/-- Ongoing event for QR issuance. -/
def evC7 : Event := { id := "q", startDate := 0, endDate := 1000000 }

def dbC7 : DB := { events := [evC7] }

/-- The token both issuances of `generateEventQR` on `dbC7` produce at
millisecond 100 under `ctxA`. -/
def tok7 : String := "event-checkin:q:100:aa"

/-- `dbC7` after one issuance at millisecond 100. -/
def dbC7a : DB :=
  { events := [evC7],
    qrcodes := [{ eventId := "q", qrData := tok7, expiresAt := 86400100, isActive := true }] }

/-- `dbC7a` after a second issuance in the same millisecond. -/
def dbC7b : DB :=
  { events := [evC7],
    qrcodes := [{ eventId := "q", qrData := tok7, expiresAt := 86400100, isActive := false },
                { eventId := "q", qrData := tok7, expiresAt := 86400100, isActive := true }] }

/-- The token an issuance on `dbC7a` at millisecond 200 produces. -/
def tok7b : String := "event-checkin:q:200:aa"

/-- `dbC7a` after a second issuance at millisecond 200: the first row
is deactivated, the new one is active. -/
def dbC7c : DB :=
  { events := [evC7],
    qrcodes := [{ eventId := "q", qrData := tok7, expiresAt := 86400100, isActive := false },
                { eventId := "q", qrData := tok7b, expiresAt := 86400200, isActive := true }] }

/-- An event that has not started yet. -/
def dbC8 : DB := { events := [{ id := "f", startDate := 5000, endDate := 9000 }] }

/-- `dbC8` after issuing a token at millisecond 100. -/
def tok8 : String := "event-checkin:f:100:aa"

def dbC8a : DB :=
  { events := [{ id := "f", startDate := 5000, endDate := 9000 }],
    qrcodes := [{ eventId := "f", qrData := tok8, expiresAt := 86400100, isActive := true }] }

/-- Ongoing event with a well-formed stored token (its digest segment
is `ctxA`'s digest of its payload). -/
def dbC9 : DB :=
  { events := [{ id := "g", startDate := 0, endDate := 1000000 }],
    qrcodes := [{ eventId := "g", qrData := "event-checkin:g:7:aa",
                  expiresAt := 10000, isActive := true }] }

/-- Ongoing event with a stored token whose signature segment is NOT
the digest of its payload under `ctxA`. -/
def dbC10 : DB :=
  { events := [{ id := "h", startDate := 0, endDate := 1000000 }],
    qrcodes := [{ eventId := "h", qrData := "event-checkin:h:7:zz",
                  expiresAt := 10000, isActive := true }] }

/-! ## Supporting lemmas: lookups and keys -/

theorem findEvent_mem {db : DB} {id : String} {e : Event}
    (h : findEvent db id = some e) : e ∈ db.events ∧ e.id = id := by
  refine ⟨List.mem_of_find?_eq_some h, ?_⟩
  have := List.find?_some h
  simpa using this

theorem findEvent_unique {db : DB} {id : String} {e e' : Event}
    (hnd : (db.events.map Event.id).Nodup)
    (h : findEvent db id = some e) (hm : e' ∈ db.events) (hid : e'.id = id) : e' = e := by
  obtain ⟨hmem, hide⟩ := findEvent_mem h
  exact List.inj_on_of_nodup_map hnd hm hmem (by rw [hid, hide])

theorem findRegistration_none_key {db : DB} {E U : String}
    (h : findRegistration db E U = none) :
    ∀ r ∈ db.registrations, regKey r ≠ (E, U) := by
  intro r hr hkey
  have hne := List.find?_eq_none.mp h r hr
  apply hne
  have h1 : r.eventId = E := congrArg Prod.fst hkey
  have h2 : r.userId = U := congrArg Prod.snd hkey
  simp [h1, h2]

theorem findRegistration_some_key {db : DB} {E U : String} {r : Registration}
    (h : findRegistration db E U = some r) :
    r ∈ db.registrations ∧ r.eventId = E ∧ r.userId = U := by
  refine ⟨List.mem_of_find?_eq_some h, ?_, ?_⟩ <;>
    · have := List.find?_some h
      simp only [Bool.and_eq_true, beq_iff_eq] at this
      tauto

theorem updateEvents_map_id (events : List Event) (id : String) (f : Event → Event)
    (hf : ∀ e, (f e).id = e.id) :
    (updateEvents events id f).map Event.id = events.map Event.id := by
  unfold updateEvents
  rw [List.map_map]
  apply List.map_congr_left
  intro e _
  by_cases h : e.id = id <;> simp [h, hf]

theorem mem_updateEvents {events : List Event} {id : String} {f : Event → Event} {e' : Event}
    (h : e' ∈ updateEvents events id f) :
    ∃ e ∈ events, e' = if e.id == id then f e else e := by
  unfold updateEvents at h
  obtain ⟨e, he, hfe⟩ := List.mem_map.mp h
  exact ⟨e, he, hfe.symm⟩

/-- Removing the unique row with key `(E, U)` lowers any `countP` by
that one row's contribution. -/
theorem countP_filter_key (l : List Registration) (E U : String) (r₀ : Registration)
    (p : Registration → Bool) (hnd : (l.map regKey).Nodup) (hm : r₀ ∈ l)
    (hE : r₀.eventId = E) (hU : r₀.userId = U) :
    (l.filter fun r => !(r.eventId == E && r.userId == U)).countP p
      + (if p r₀ then 1 else 0) = l.countP p := by
  induction l with
  | nil => cases hm
  | cons a t ih =>
    rw [List.map_cons, List.nodup_cons] at hnd
    obtain ⟨hnotin, hndt⟩ := hnd
    rcases List.mem_cons.mp hm with rfl | hmt
    · have hpred : (r₀.eventId == E && r₀.userId == U) = true := by simp [hE, hU]
      rw [List.filter_cons]
      simp only [hpred, Bool.not_true, Bool.false_eq_true, if_false]
      have hkeep : t.filter (fun r => !(r.eventId == E && r.userId == U)) = t := by
        apply List.filter_eq_self.mpr
        intro r hr
        cases hcc : (r.eventId == E && r.userId == U) with
        | false => simp [hcc]
        | true =>
          exfalso
          simp only [Bool.and_eq_true, beq_iff_eq] at hcc
          exact hnotin (List.mem_map.mpr ⟨r, hr, by simp [regKey, hcc.1, hcc.2, hE, hU]⟩)
      rw [hkeep, List.countP_cons]
    · have hne : (a.eventId == E && a.userId == U) = false := by
        by_contra hc
        simp only [Bool.not_eq_false, Bool.and_eq_true, beq_iff_eq] at hc
        apply hnotin
        apply List.mem_map.mpr
        refine ⟨r₀, hmt, ?_⟩
        simp [regKey, hc.1, hc.2, hE, hU]
      rw [List.filter_cons]
      simp only [hne, Bool.not_false, if_true]
      rw [List.countP_cons, List.countP_cons]
      have hih := ih hndt hmt
      by_cases hph : p a = true <;> by_cases hpr : p r₀ = true <;>
        simp only [hph, hpr, if_true, if_false] at hih ⊢ <;> omega

/-! ## Supporting lemmas: ledger-invariant preservation -/

/-- The ledger invariant only reads `events` and `registrations`. -/
theorem ledgerInv_congr {db db' : DB} (hE : db'.events = db.events)
    (hR : db'.registrations = db.registrations) (h : ledgerInv db) : ledgerInv db' := by
  obtain ⟨⟨h1, h2⟩, h3⟩ := h
  refine ⟨⟨by rw [hE]; exact h1, by rw [hR]; exact h2⟩, ?_⟩
  intro e he
  rw [hE] at he
  have hh := h3 e he
  refine ⟨?_, hh.2⟩
  have hc := hh.1
  unfold counterOK regCount at hc ⊢
  rw [hR]
  exact hc

/-- The registration transaction preserves the ledger invariant when
its guards (capacity not full, not already registered) held on the
fetched event row. -/
theorem regCommit_ledgerInv {db : DB} {E U : String} {ev : Event}
    (hinv : ledgerInv db) (hev : findEvent db E = some ev)
    (hcap : capacityFull ev = false) (hreg : findRegistration db E U = none) :
    ledgerInv (regCommit db E U) := by
  obtain ⟨⟨hndE, hndR⟩, hall⟩ := hinv
  have hevs : (regCommit db E U).events
      = updateEvents db.events E (fun e => { e with currentAttendees := e.currentAttendees + 1 }) := rfl
  have hregs : (regCommit db E U).registrations
      = db.registrations ++ [{ eventId := E, userId := U, status := "CONFIRMED" }] := rfl
  refine ⟨⟨?_, ?_⟩, ?_⟩
  · rw [hevs, updateEvents_map_id]
    · exact hndE
    · intro e; rfl
  · rw [hregs, List.map_append, List.nodup_append]
    refine ⟨hndR, List.nodup_singleton _, ?_⟩
    intro k hk hk2
    simp only [List.map_cons, List.map_nil, List.mem_singleton] at hk2
    obtain ⟨r, hr, hrk⟩ := List.mem_map.mp hk
    exact findRegistration_none_key hreg r hr (by rw [hrk, hk2]; rfl)
  · intro e' he'
    rw [hevs] at he'
    obtain ⟨e, heMem, he'eq⟩ := mem_updateEvents he'
    have hcnt : e.currentAttendees = ((regCount db e.id : Nat) : Int) := (hall e heMem).1
    have hcapE : capOK e := (hall e heMem).2
    have hcountNew : regCount (regCommit db E U) e.id
        = regCount db e.id + (if e.id = E then 1 else 0) := by
      unfold regCount
      rw [hregs, List.countP_append]
      by_cases hid : e.id = E
      · simp [List.countP_cons, hid]
      · simp only [List.countP_cons, List.countP_nil]
        have : (E == e.id) = false := by
          simp only [beq_eq_false_iff_ne, ne_eq]
          exact fun h => hid h.symm
        simp [this, hid]
    by_cases hid : e.id = E
    · rw [if_pos (by simpa using hid)] at he'eq
      rw [he'eq]
      have heq : e = ev := findEvent_unique hndE hev heMem hid
      constructor
      · show e.currentAttendees + 1 = ((regCount (regCommit db E U) e.id : Nat) : Int)
        rw [hcountNew, if_pos hid]
        push_cast
        omega
      · intro m hm
        have hmE : ev.maxAttendees = some m := by rw [← heq]; exact hm
        by_cases hm0 : m = 0
        · exact Or.inl hm0
        · right
          show e.currentAttendees + 1 ≤ m
          unfold capacityFull at hcap
          rw [hmE] at hcap
          rcases Bool.and_eq_false_iff.mp hcap with hc | hc
          · exact absurd (by simpa using hc) hm0
          · have hlt : ¬(m ≤ ev.currentAttendees) := by simpa using hc
            rw [heq]
            omega
    · rw [if_neg (by simpa using hid)] at he'eq
      rw [he'eq]
      constructor
      · show e.currentAttendees = ((regCount (regCommit db E U) e.id : Nat) : Int)
        rw [hcountNew, if_neg hid]
        simpa using hcnt
      · exact hcapE

/-- A successful run of the pre-transaction checks pins down the facts
the transaction relies on. -/
theorem regChecks_ok {db : DB} {E U : String} {now : Nat}
    (h : regChecks db E U now = .ok ()) :
    ∃ ev, findEvent db E = some ev ∧ capacityFull ev = false ∧
      findRegistration db E U = none := by
  unfold regChecks at h
  cases hev : findEvent db E with
  | none => simp only [hev] at h; exact Except.noConfusion h
  | some ev =>
    simp only [hev] at h
    split_ifs at h with h1 h2 h3 h4 h5 h6
    refine ⟨ev, rfl, by simpa using h6, ?_⟩
    cases hfr : findRegistration db E U with
    | none => rfl
    | some r => rw [hfr] at h5; simp at h5

theorem attendanceCheckIn_ok_shape {db db' : DB} {E U : String} {notes : Option String}
    {now : Nat} (h : attendanceCheckIn db E U notes now = .ok db') :
    db'.events = db.events ∧ db'.registrations = db.registrations := by
  simp only [attendanceCheckIn] at h
  repeat' split at h
  all_goals first
    | exact Except.noConfusion h
    | (injection h with h; subst h; exact ⟨rfl, rfl⟩)

theorem eventCheckIn_ok_shape {db db' : DB} {E U : String} {notes : Option String}
    {now : Nat} (h : eventCheckIn db E U notes now = .ok db') :
    db'.events = db.events ∧ db'.registrations = db.registrations := by
  simp only [eventCheckIn] at h
  repeat' split at h
  all_goals first
    | exact Except.noConfusion h
    | (injection h with h; subst h; exact ⟨rfl, rfl⟩)

theorem markAttendance_ok_shape {db db' : DB} {E U : String}
    {now : Nat} (h : markAttendance db E U now = .ok db') :
    db'.events = db.events ∧ db'.registrations = db.registrations := by
  simp only [markAttendance] at h
  repeat' split at h
  all_goals first
    | exact Except.noConfusion h
    | (injection h with h; subst h; exact ⟨rfl, rfl⟩)

theorem checkOut_ok_shape {db db' : DB} {E U : String} {notes : Option String}
    {now : Nat} (h : checkOut db E U notes now = .ok db') :
    db'.events = db.events ∧ db'.registrations = db.registrations := by
  simp only [checkOut] at h
  repeat' split at h
  all_goals first
    | exact Except.noConfusion h
    | (injection h with h; subst h; exact ⟨rfl, rfl⟩)

theorem checkInWithToken_ok_shape {ctx : QRCtx} {db db' : DB} {E tok U : String} {now : Nat}
    (h : checkInWithToken ctx db E tok U now = .ok db') :
    ∃ ev db₁, findEvent db E = some ev ∧ autoRegister db ev E U now = .ok db₁ ∧
      db'.events = db₁.events ∧ db'.registrations = db₁.registrations := by
  unfold checkInWithToken at h
  cases hval : validateCheckinToken ctx db E tok now with
  | error e => simp only [hval] at h; exact Except.noConfusion h
  | ok ev0 =>
    simp only [hval] at h
    cases hev : findEvent db E with
    | none => simp only [hev] at h; exact Except.noConfusion h
    | some ev =>
      simp only [hev] at h
      cases hatt : findAttendance db E U with
      | some att =>
        simp only [hatt] at h
        split_ifs at h with h1
        cases hauto : autoRegister db ev E U now with
        | error e => simp only [hauto] at h; exact Except.noConfusion h
        | ok db₁ =>
          simp only [hauto] at h
          injection h with h
          exact ⟨ev, db₁, rfl, hauto, by rw [← h], by rw [← h]⟩
      | none =>
        simp only [hatt] at h
        cases hauto : autoRegister db ev E U now with
        | error e => simp only [hauto] at h; exact Except.noConfusion h
        | ok db₁ =>
          simp only [hauto] at h
          injection h with h
          exact ⟨ev, db₁, rfl, hauto, by rw [← h], by rw [← h]⟩

theorem validateAndCheckIn_ok_shape {ctx : QRCtx} {db db' : DB} {qrData U : String} {now : Nat}
    (h : validateAndCheckIn ctx db qrData U now = .ok db') :
    ∃ eid ev db₁, findEvent db eid = some ev ∧ autoRegister db ev eid U now = .ok db₁ ∧
      db'.events = db₁.events ∧ db'.registrations = db₁.registrations := by
  simp only [validateAndCheckIn] at h
  split_ifs at h with h1
  cases hpq : (jsSplit qrData ':')[1]? with
  | none => simp only [hpq] at h; exact Except.noConfusion h
  | some eid =>
    simp only [hpq] at h
    cases hq : findActiveQR db eid qrData with
    | none => simp only [hq] at h; exact Except.noConfusion h
    | some q =>
      simp only [hq] at h
      split_ifs at h with h2
      cases hev : findEvent db eid with
      | none => simp only [hev] at h; exact Except.noConfusion h
      | some ev =>
        simp only [hev] at h
        split_ifs at h with h3 h4 h5
        cases hatt : findAttendance db eid U with
        | some att =>
          simp only [hatt] at h
          split_ifs at h with h6
          cases hauto : autoRegister db ev eid U now with
          | error e => simp only [hauto] at h; exact Except.noConfusion h
          | ok db₁ =>
            simp only [hauto] at h
            injection h with h
            exact ⟨eid, ev, db₁, hev, hauto, by rw [← h], by rw [← h]⟩
        | none =>
          simp only [hatt] at h
          cases hauto : autoRegister db ev eid U now with
          | error e => simp only [hauto] at h; exact Except.noConfusion h
          | ok db₁ =>
            simp only [hauto] at h
            injection h with h
            exact ⟨eid, ev, db₁, hev, hauto, by rw [← h], by rw [← h]⟩

theorem autoRegister_ledgerInv {db db₁ : DB} {ev : Event} {E U : String} {now : Nat}
    (hinv : ledgerInv db) (hev : findEvent db E = some ev)
    (h : autoRegister db ev E U now = .ok db₁) : ledgerInv db₁ := by
  unfold autoRegister at h
  by_cases h1 : ev.registrationRequired = true
  · rw [if_pos h1] at h
    cases hreg : findRegistration db E U with
    | some r =>
      simp only [hreg] at h
      injection h with h
      rw [← h]
      exact hinv
    | none =>
      simp only [hreg] at h
      by_cases hd : deadlineElapsedStrict ev now = true
      · rw [if_pos hd] at h
        exact Except.noConfusion h
      · rw [if_neg hd] at h
        by_cases hc : capacityFull ev = true
        · rw [if_pos hc] at h
          exact Except.noConfusion h
        · rw [if_neg hc] at h
          injection h with h
          rw [← h]
          exact regCommit_ledgerInv hinv hev (by simpa using hc) hreg
  · rw [if_neg h1] at h
    injection h with h
    rw [← h]
    exact hinv

theorem cancelRegistration_ledgerInv {db db' : DB} {E U : String} {now : Nat}
    (hinv : ledgerInv db) (h : cancelRegistration db E U now = .ok db') : ledgerInv db' := by
  obtain ⟨⟨hndE, hndR⟩, hall⟩ := hinv
  unfold cancelRegistration at h
  cases hreg : findRegistration db E U with
  | none => simp only [hreg] at h; exact Except.noConfusion h
  | some r₀ =>
    simp only [hreg] at h
    cases hev : findEvent db E with
    | none => simp only [hev] at h; exact Except.noConfusion h
    | some ev =>
      simp only [hev] at h
      split_ifs at h with h1
      injection h with h
      obtain ⟨hr₀mem, hr₀E, hr₀U⟩ := findRegistration_some_key hreg
      rw [← h]
      refine ⟨⟨?_, ?_⟩, ?_⟩
      · show ((updateEvents db.events E
            (fun e => { e with currentAttendees := e.currentAttendees - 1 })).map Event.id).Nodup
        rw [updateEvents_map_id]
        · exact hndE
        · intro e; rfl
      · show ((db.registrations.filter
            (fun r => !(r.eventId == E && r.userId == U))).map regKey).Nodup
        exact List.Nodup.sublist (List.Sublist.map regKey (List.filter_sublist _)) hndR
      · intro e' he'
        have he'2 : e' ∈ updateEvents db.events E
            (fun e => { e with currentAttendees := e.currentAttendees - 1 }) := he'
        obtain ⟨e, heMem, he'eq⟩ := mem_updateEvents he'2
        have hcnt : e.currentAttendees = ((regCount db e.id : Nat) : Int) := (hall e heMem).1
        have hcapE : capOK e := (hall e heMem).2
        have hkey := countP_filter_key db.registrations E U r₀
          (fun r => r.eventId == e.id) hndR hr₀mem hr₀E hr₀U
        by_cases hid : e.id = E
        · rw [if_pos (by simpa using hid)] at he'eq
          rw [he'eq]
          have hp : (r₀.eventId == e.id) = true := by simp [hr₀E, hid]
          simp only [hp, if_true] at hkey
          constructor
          · show e.currentAttendees - 1
              = ((List.countP (fun r => r.eventId == e.id)
                  (db.registrations.filter (fun r => !(r.eventId == E && r.userId == U))) : Nat) : Int)
            unfold regCount at hcnt
            omega
          · intro m hm
            rcases hcapE m hm with h0 | hle
            · exact Or.inl h0
            · right
              show e.currentAttendees - 1 ≤ m
              omega
        · rw [if_neg (by simpa using hid)] at he'eq
          rw [he'eq]
          have hp : (r₀.eventId == e.id) = false := by
            simp only [beq_eq_false_iff_ne, ne_eq, hr₀E]
            exact fun hh => hid hh.symm
          simp only [hp, Bool.false_eq_true, if_false] at hkey
          constructor
          · show e.currentAttendees
              = ((List.countP (fun r => r.eventId == e.id)
                  (db.registrations.filter (fun r => !(r.eventId == E && r.userId == U))) : Nat) : Int)
            unfold regCount at hcnt
            omega
          · exact hcapE

theorem generateEventQR_shape {ctx : QRCtx} {db : DB} {E : String} {hrs now : Nat}
    {p : DB × String} (h : generateEventQR ctx db E hrs now = .ok p) :
    p.1.events = db.events ∧ p.1.registrations = db.registrations ∧
      p.1.attendances = db.attendances := by
  unfold generateEventQR at h
  cases hev : findEvent db E with
  | none => simp only [hev] at h; exact Except.noConfusion h
  | some ev =>
    simp only [hev] at h
    split_ifs at h with h1
    injection h with h
    rw [← h]
    exact ⟨rfl, rfl, rfl⟩

theorem revokeQRCode_shape {db db' : DB} {E : String} (h : revokeQRCode db E = .ok db') :
    db'.events = db.events ∧ db'.registrations = db.registrations ∧
      db'.qrcodes = deactivateFirst db.qrcodes E := by
  unfold revokeQRCode at h
  cases hf : db.qrcodes.find? (fun q => q.eventId == E && q.isActive) with
  | none => simp only [hf] at h; exact Except.noConfusion h
  | some q =>
    simp only [hf] at h
    injection h with h
    rw [← h]
    exact ⟨rfl, rfl, rfl⟩

/-- One successful public operation other than event update preserves
the ledger invariant. -/
theorem applyOp_ledgerInv {ctx : QRCtx} {db db' : DB} {op : Op}
    (hinv : ledgerInv db) (hop : op.isEventUpdate = false)
    (h : applyOp ctx db op = .ok db') : ledgerInv db' := by
  cases op with
  | update id u uid role => exact absurd hop (by simp [Op.isEventUpdate])
  | register E U now =>
    have h' : registerForEvent db E U now = .ok db' := h
    unfold registerForEvent at h'
    cases hchecks : regChecks db E U now with
    | error e => simp only [hchecks] at h'; exact Except.noConfusion h'
    | ok u =>
      cases u
      simp only [hchecks] at h'
      injection h' with h'
      obtain ⟨ev, hev, hcap, hreg⟩ := regChecks_ok hchecks
      rw [← h']
      exact regCommit_ledgerInv hinv hev hcap hreg
  | cancel E U now => exact cancelRegistration_ledgerInv hinv h
  | checkInAttendance E U notes now =>
    obtain ⟨h1, h2⟩ := attendanceCheckIn_ok_shape (h : attendanceCheckIn db E U notes now = .ok db')
    exact ledgerInv_congr h1 h2 hinv
  | checkInEvent E U notes now =>
    obtain ⟨h1, h2⟩ := eventCheckIn_ok_shape (h : eventCheckIn db E U notes now = .ok db')
    exact ledgerInv_congr h1 h2 hinv
  | mark E U now =>
    obtain ⟨h1, h2⟩ := markAttendance_ok_shape (h : markAttendance db E U now = .ok db')
    exact ledgerInv_congr h1 h2 hinv
  | checkout E U notes now =>
    obtain ⟨h1, h2⟩ := checkOut_ok_shape (h : checkOut db E U notes now = .ok db')
    exact ledgerInv_congr h1 h2 hinv
  | qrGenerate E hrs now =>
    have h' : (match generateEventQR ctx db E hrs now with
      | .error er => (.error er : Except ApiError DB)
      | .ok (db', _) => .ok db') = .ok db' := h
    cases hg : generateEventQR ctx db E hrs now with
    | error er => simp only [hg] at h'; exact Except.noConfusion h'
    | ok p =>
      obtain ⟨pdb, ptok⟩ := p
      simp only [hg] at h'
      injection h' with h'
      obtain ⟨q1, q2, _⟩ := generateEventQR_shape hg
      exact ledgerInv_congr (by rw [← h']; exact q1) (by rw [← h']; exact q2) hinv
  | qrCheckInToken E tok U now =>
    obtain ⟨ev, db₁, hev, hauto, h1, h2⟩ := checkInWithToken_ok_shape
      (h : checkInWithToken ctx db E tok U now = .ok db')
    exact ledgerInv_congr h1 h2 (autoRegister_ledgerInv hinv hev hauto)
  | qrSelf q U now =>
    obtain ⟨eid, ev, db₁, hev, hauto, h1, h2⟩ := @validateAndCheckIn_ok_shape ctx db db' q U now
      (h : validateAndCheckIn ctx db q U now = .ok db')
    exact ledgerInv_congr h1 h2 (autoRegister_ledgerInv hinv hev hauto)
  | qrRevoke E =>
    obtain ⟨h1, h2, _⟩ := revokeQRCode_shape (h : revokeQRCode db E = .ok db')
    exact ledgerInv_congr h1 h2 hinv
  | qrCleanup now =>
    have h' : Except.ok (cleanupExpiredQRCodes db now) = .ok db' := h
    injection h' with h'
    exact ledgerInv_congr (by rw [← h']; rfl) (by rw [← h']; rfl) hinv

/-! ## Claim C1 -/

/-- C1, counterexample: the claim as stated is false.  `dbC1` satisfies
the spec's invariant (`0 ≤ currentAttendees ≤ maxAttendees`, here
`2 ≤ 5`), yet the public event-update operation — one of the operations
the claim quantifies over — succeeds in setting `maxAttendees := 1`
without any capacity re-validation, yielding a state with
`currentAttendees = 2 > maxAttendees = 1`. -/
theorem updateEvent_breaks_capacity_invariant :
    claimCapInv dbC1 ∧
    updateEvent dbC1 "e" dtoC1 "adm" "ADMIN" = .ok dbC1x ∧
    ¬ claimCapInv dbC1x :=
  ⟨by decide, by rfl, by decide⟩

/-- C1, amended: the invariant `0 ≤ currentAttendees`, and
`currentAttendees ≤ maxAttendees` whenever `maxAttendees` is set
nonzero (a capacity of 0 is JS-falsy and ignored by the code's
check), holds in every state reachable from a well-keyed state whose
counters equal the registration counts, via the public operations
registration, cancellation, check-in (all three variants), check-out
and the QR operations — that is, every public operation except event
update, which can break the bound by lowering `maxAttendees` below
`currentAttendees`. -/
theorem ledger_invariant_reachable_no_update {ctx : QRCtx} {db db' : DB}
    (hinv : ledgerInv db) (hreach : ReachNoUpdate ctx db db') :
    ledgerInv db' ∧ ∀ e ∈ db'.events, 0 ≤ e.currentAttendees ∧
      ∀ m, e.maxAttendees = some m → m ≠ 0 → e.currentAttendees ≤ m := by
  have hmain : ledgerInv db' := by
    induction hreach with
    | refl => exact hinv
    | step hsteps hop happ ih => exact applyOp_ledgerInv ih hop happ
  refine ⟨hmain, ?_⟩
  intro e he
  have h1 : e.currentAttendees = ((regCount db' e.id : Nat) : Int) := (hmain.2 e he).1
  have h2 : capOK e := (hmain.2 e he).2
  constructor
  · rw [h1]
    exact Int.natCast_nonneg _
  · intro m hm hm0
    rcases h2 m hm with h0 | hle
    · exact absurd h0 hm0
    · exact hle

/-- Witness for the amended C1: a one-slot event, one successful
registration step, and the invariant in the reached state. -/
theorem ledger_invariant_witness :
    ledgerInv dbC2 ∧ ledgerInv dbC2r ∧ ∀ e ∈ dbC2r.events, 0 ≤ e.currentAttendees ∧
      ∀ m, e.maxAttendees = some m → m ≠ 0 → e.currentAttendees ≤ m := by
  have hinv : ledgerInv dbC2 := by decide
  have hstep : applyOp ctxA dbC2 (Op.register "e" "A" 10) = .ok dbC2r := by rfl
  have hreach : ReachNoUpdate ctxA dbC2 dbC2r :=
    @ReachNoUpdate.step ctxA dbC2 dbC2 dbC2r (Op.register "e" "A" 10)
      (ReachNoUpdate.refl dbC2) rfl hstep
  have hr := ledger_invariant_reachable_no_update hinv hreach
  exact ⟨hinv, hr.1, hr.2⟩

/-! ## Claim C2 -/

/-- C2: the capacity check of `registerForEvent` runs before the
`prisma.$transaction`, not inside it.  On a one-slot event, two
requests that both pass the pre-transaction checks against the same
snapshot both commit, leaving two CONFIRMED registrations and
`currentAttendees = 2` against `maxAttendees = 1` — though the same
second request issued after the first commit is rejected with
CapacityExceeded (sequential behavior). -/
theorem registration_race_overbooks :
    regChecks dbC2 "e" "A" 10 = .ok () ∧
    regChecks dbC2 "e" "B" 10 = .ok () ∧
    registerForEvent dbC2 "e" "A" 10 = .ok (regCommit dbC2 "e" "A") ∧
    registerForEvent (regCommit dbC2 "e" "A") "e" "B" 10 = .error .capacityExceeded ∧
    ((regCommit (regCommit dbC2 "e" "A") "e" "B").registrations.countP
      (fun r => r.eventId == "e" && r.status == "CONFIRMED")) = 2 ∧
    findEvent (regCommit (regCommit dbC2 "e" "A") "e" "B") "e"
      = some { id := "e", startDate := 200, endDate := 1000,
               registrationRequired := true, maxAttendees := some 1,
               currentAttendees := 2 } :=
  ⟨rfl, rfl, rfl, rfl, rfl, rfl⟩

/-! ## Claim C3 -/

/-- C3, counterexample: an event with `maxAttendees` set to `0` and
`currentAttendees = 0 ≥ 0` must, per the claim, be rejected with
CapacityExceeded; the code's truthiness check
`event.maxAttendees && ...` treats `0` as "no capacity set" and the
registration succeeds. -/
theorem register_zero_capacity_not_rejected :
    findEvent dbC3 "z"
      = some { id := "z", startDate := 200, endDate := 1000,
               registrationRequired := true, maxAttendees := some 0 } ∧
    registerForEvent dbC3 "z" "u" 10 ≠ .error .capacityExceeded ∧
    (registerForEvent dbC3 "z" "u" 10 = .ok (regCommit dbC3 "z" "u")) :=
  ⟨rfl, fun h => Except.noConfusion h, rfl⟩

/-- C3, amended: full characterization of `Register`, with the capacity
condition corrected to require a nonzero set `maxAttendees` (the JS
truthiness): each failure fires exactly under the stated condition with
the stated priority, and success appends one CONFIRMED registration and
increments the event's counter by exactly one. -/
theorem registerForEvent_characterization (db : DB) (E U : String) (now : Nat) :
    (findEvent db E = none → registerForEvent db E U now = .error .eventNotFound) ∧
    (∀ ev, findEvent db E = some ev →
      (ev.isActive = false → registerForEvent db E U now = .error .eventInactive) ∧
      (ev.isActive = true → ev.registrationRequired = false →
        registerForEvent db E U now = .error .registrationNotRequired) ∧
      (ev.isActive = true → ev.registrationRequired = true → ev.startDate ≤ now →
        registerForEvent db E U now = .error .eventAlreadyStarted) ∧
      (ev.isActive = true → ev.registrationRequired = true → now < ev.startDate →
        ∀ d, ev.registrationDeadline = some d → d ≤ now →
        registerForEvent db E U now = .error .deadlinePassed) ∧
      (ev.isActive = true → ev.registrationRequired = true → now < ev.startDate →
        deadlineElapsedIncl ev now = false → (findRegistration db E U).isSome = true →
        registerForEvent db E U now = .error .alreadyRegistered) ∧
      (ev.isActive = true → ev.registrationRequired = true → now < ev.startDate →
        deadlineElapsedIncl ev now = false → findRegistration db E U = none →
        ∀ m, ev.maxAttendees = some m → m ≠ 0 → m ≤ ev.currentAttendees →
        registerForEvent db E U now = .error .capacityExceeded) ∧
      (ev.isActive = true → ev.registrationRequired = true → now < ev.startDate →
        deadlineElapsedIncl ev now = false → findRegistration db E U = none →
        capacityFull ev = false →
        registerForEvent db E U now = .ok { db with
          registrations := db.registrations
            ++ [{ eventId := E, userId := U, status := "CONFIRMED" }],
          events := updateEvents db.events E
            (fun e => { e with currentAttendees := e.currentAttendees + 1 }) })) := by
  constructor
  · intro h
    unfold registerForEvent regChecks
    rw [h]
  · intro ev hev
    have hstart : ∀ hns : now < ev.startDate, ¬(ev.startDate ≤ now) := fun hns => by omega
    refine ⟨?_, ?_, ?_, ?_, ?_, ?_, ?_⟩
    · intro hact
      unfold registerForEvent regChecks
      rw [hev]
      simp [hact]
    · intro hact hreq
      unfold registerForEvent regChecks
      rw [hev]
      simp [hact, hreq]
    · intro hact hreq hst
      unfold registerForEvent regChecks
      rw [hev]
      simp [hact, hreq, hst]
    · intro hact hreq hns d hd hdle
      have hdl : deadlineElapsedIncl ev now = true := by
        unfold deadlineElapsedIncl
        rw [hd]
        simpa using hdle
      unfold registerForEvent regChecks
      rw [hev]
      simp [hact, hreq, hstart hns, hdl]
    · intro hact hreq hns hdl hr
      unfold registerForEvent regChecks
      rw [hev]
      simp [hact, hreq, hstart hns, hdl, hr]
    · intro hact hreq hns hdl hregn m hm hm0 hle
      have hcap : capacityFull ev = true := by
        unfold capacityFull
        rw [hm]
        simp [hm0, hle]
      unfold registerForEvent regChecks
      rw [hev]
      simp [hact, hreq, hstart hns, hdl, hregn, hcap]
    · intro hact hreq hns hdl hregn hcap
      unfold registerForEvent regChecks
      rw [hev]
      simp [hact, hreq, hstart hns, hdl, hregn, hcap]
      rfl

/-- Witness for the amended C3: the success clause applied to the
one-slot store. -/
theorem registerForEvent_characterization_witness :
    registerForEvent dbC2 "e" "A" 10 = .ok dbC2r := by
  have h := (registerForEvent_characterization dbC2 "e" "A" 10).2
    { id := "e", startDate := 200, endDate := 1000,
      registrationRequired := true, maxAttendees := some 1 } rfl
  exact h.2.2.2.2.2.2 rfl rfl (by decide) (by decide) rfl (by decide)

/-! ## Supporting lemmas: attendance lookups -/

theorem exists_ok_of_isOk {ε α : Type} {x : Except ε α} (h : x.isOk = true) :
    ∃ b, x = .ok b := by
  cases x with
  | error e => simp [Except.isOk, Except.toBool] at h
  | ok b => exact ⟨b, rfl⟩

/-- `find?` at one composite key commutes with a key-preserving update
at another (or the same) key. -/
theorem findAttendance_updateAttendances (atts : List Attendance) (E2 U2 E U : String)
    (f : Attendance → Attendance)
    (hf : ∀ a, (f a).eventId = a.eventId ∧ (f a).userId = a.userId) :
    (updateAttendances atts E2 U2 f).find? (fun a => a.eventId == E && a.userId == U)
      = if E2 = E ∧ U2 = U
        then (atts.find? (fun a => a.eventId == E && a.userId == U)).map f
        else atts.find? (fun a => a.eventId == E && a.userId == U) := by
  induction atts with
  | nil =>
    by_cases hk : E2 = E ∧ U2 = U <;> simp [updateAttendances, hk]
  | cons a t ih =>
    unfold updateAttendances at ih ⊢
    simp only [List.map_cons]
    have hfa : ((f a).eventId == E && (f a).userId == U) = (a.eventId == E && a.userId == U) := by
      rw [(hf a).1, (hf a).2]
    by_cases ha : (a.eventId == E2 && a.userId == U2) = true
    · have haE : a.eventId = E2 := by
        simp only [Bool.and_eq_true, beq_iff_eq] at ha; exact ha.1
      have haU : a.userId = U2 := by
        simp only [Bool.and_eq_true, beq_iff_eq] at ha; exact ha.2
      rw [if_pos ha]
      by_cases hk : E2 = E ∧ U2 = U
      · have hpa : (a.eventId == E && a.userId == U) = true := by
          simp [haE, haU, hk.1, hk.2]
        simp only [List.find?_cons, hfa, hpa, if_pos hk, Option.map_some']
      · have hpa : (a.eventId == E && a.userId == U) = false := by
          rw [haE, haU]
          rcases not_and_or.mp hk with hne | hne
          · simp [hne]
          · simp [hne]
        have hih := ih
        rw [if_neg hk] at hih
        simp only [List.find?_cons, hfa, hpa, if_neg hk]
        exact hih
    · rw [if_neg ha]
      by_cases hpa : (a.eventId == E && a.userId == U) = true
      · by_cases hk : E2 = E ∧ U2 = U
        · exfalso
          apply ha
          simp only [Bool.and_eq_true, beq_iff_eq] at hpa ⊢
          exact ⟨hpa.1.trans hk.1.symm, hpa.2.trans hk.2.symm⟩
        · simp only [List.find?_cons, hpa, if_neg hk]
      · have hpa' : (a.eventId == E && a.userId == U) = false :=
          Bool.not_eq_true _ ▸ hpa
        by_cases hk : E2 = E ∧ U2 = U
        · have hih := ih
          rw [if_pos hk] at hih
          simp only [List.find?_cons, hpa', if_pos hk, hih]
        · have hih := ih
          rw [if_neg hk] at hih
          simp only [List.find?_cons, hpa', if_neg hk, hih]

/-! ## Claim C4 -/

/-- C4, counterexample: at `now` exactly equal to the registration
deadline, `Register` fails DeadlinePassed (inclusive check
`deadline <= now`), but `CheckInWithToken`'s auto-registration uses the
strict check `now > deadline` and succeeds — so its deadline check is
not "the same condition as Register". -/
theorem checkInWithToken_deadline_boundary :
    (findEvent dbC4 "d").map Event.registrationDeadline = some (some 100) ∧
    deadlineElapsedIncl evC4 100 = true ∧
    checkInWithToken ctxA dbC4 "d" tokC4 "u" 100 ≠ .error .deadlinePassed ∧
    (checkInWithToken ctxA dbC4 "d" tokC4 "u" 100).isOk = true :=
  ⟨rfl, rfl, fun h => Except.noConfusion h, rfl⟩

/-- C4, amended: when the token validates, registration is required and
the user has neither an attendance-with-check-in nor a registration,
`CheckInWithToken` auto-registers subject to a deadline check that is
STRICT (`now > deadline`; Register's is inclusive) and to the same
capacity check as Register; on success it creates a CONFIRMED
registration, increments `currentAttendees` by one in the same
transaction, and records the check-in. -/
theorem checkInWithToken_autoregister {ctx : QRCtx} {db : DB} {E tok U : String}
    {now : Nat} {ev : Event}
    (hval : (validateCheckinToken ctx db E tok now).isOk = true)
    (hev : findEvent db E = some ev)
    (hreq : ev.registrationRequired = true)
    (hatt : ∀ a, findAttendance db E U = some a → a.checkInTime = none)
    (hreg : findRegistration db E U = none) :
    (checkInWithToken ctx db E tok U now = .error .deadlinePassed ↔
      deadlineElapsedStrict ev now = true) ∧
    (deadlineElapsedStrict ev now = false →
      (checkInWithToken ctx db E tok U now = .error .capacityExceeded ↔
        capacityFull ev = true)) ∧
    (deadlineElapsedStrict ev now = false → capacityFull ev = false →
      ∃ db', checkInWithToken ctx db E tok U now = .ok db' ∧
        db'.registrations = db.registrations
          ++ [{ eventId := E, userId := U, status := "CONFIRMED" }] ∧
        db'.events = updateEvents db.events E
          (fun e => { e with currentAttendees := e.currentAttendees + 1 }) ∧
        ∃ a, findAttendance db' E U = some a ∧ a.checkInTime = some now) := by
  obtain ⟨ev0, hv⟩ := exists_ok_of_isOk hval
  have hauto : autoRegister db ev E U now
      = (if deadlineElapsedStrict ev now = true
          then (.error .deadlinePassed : Except ApiError DB)
         else if capacityFull ev = true then .error .capacityExceeded
         else .ok (regCommit db E U)) := by
    unfold autoRegister
    rw [if_pos hreq]
    simp only [hreg]
  have hkeys : ∀ a : Attendance,
      (({ a with checkInTime := some now, status := "CHECKED_IN" } : Attendance).eventId
          = a.eventId
        ∧ ({ a with checkInTime := some now, status := "CHECKED_IN" } : Attendance).userId
          = a.userId) := fun a => ⟨rfl, rfl⟩
  cases hattc : findAttendance db E U with
  | some att =>
    have hcin : att.checkInTime = none := hatt att hattc
    have hred : checkInWithToken ctx db E tok U now
        = match autoRegister db ev E U now with
          | .error e => .error e
          | .ok db₁ => .ok { db₁ with
              attendances := updateAttendances db₁.attendances E U
                (fun a => { a with checkInTime := some now, status := "CHECKED_IN" }) } := by
      unfold checkInWithToken
      simp only [hv, hev, hattc, hcin, Option.isSome_none, Bool.false_eq_true, if_false]
    rw [hauto] at hred
    refine ⟨?_, ?_, ?_⟩
    · cases hd : deadlineElapsedStrict ev now with
      | true => simp [hred, hd]
      | false =>
        simp only [hred, hd, Bool.false_eq_true, if_false]
        cases hc : capacityFull ev with
        | true => simp
        | false => simp
    · intro hd
      simp only [hred, hd, Bool.false_eq_true, if_false]
      cases hc : capacityFull ev with
      | true => simp [hc]
      | false => simp [hc]
    · intro hd hc
      simp only [hred, hd, hc, Bool.false_eq_true, if_false]
      refine ⟨_, rfl, rfl, rfl, ?_⟩
      have hupd := findAttendance_updateAttendances db.attendances E U E U
        (fun a => { a with checkInTime := some now, status := "CHECKED_IN" }) hkeys
      rw [if_pos ⟨rfl, rfl⟩] at hupd
      refine ⟨{ att with checkInTime := some now, status := "CHECKED_IN" }, ?_, rfl⟩
      show (updateAttendances db.attendances E U
        (fun a => { a with checkInTime := some now, status := "CHECKED_IN" })).find?
          (fun a => a.eventId == E && a.userId == U) = _
      rw [hupd]
      show (findAttendance db E U).map _ = _
      rw [hattc]
      rfl
  | none =>
    have hred : checkInWithToken ctx db E tok U now
        = match autoRegister db ev E U now with
          | .error e => .error e
          | .ok db₁ => .ok { db₁ with
              attendances := db₁.attendances
                ++ [{ eventId := E, userId := U, checkInTime := some now,
                      checkOutTime := none, status := "CHECKED_IN", notes := none }] } := by
      unfold checkInWithToken
      simp only [hv, hev, hattc]
    rw [hauto] at hred
    refine ⟨?_, ?_, ?_⟩
    · cases hd : deadlineElapsedStrict ev now with
      | true => simp [hred, hd]
      | false =>
        simp only [hred, hd, Bool.false_eq_true, if_false]
        cases hc : capacityFull ev with
        | true => simp
        | false => simp
    · intro hd
      simp only [hred, hd, Bool.false_eq_true, if_false]
      cases hc : capacityFull ev with
      | true => simp [hc]
      | false => simp [hc]
    · intro hd hc
      simp only [hred, hd, hc, Bool.false_eq_true, if_false]
      refine ⟨_, rfl, rfl, rfl, ?_⟩
      refine ⟨{ eventId := E, userId := U, checkInTime := some now, checkOutTime := none,
                status := "CHECKED_IN", notes := none }, ?_, rfl⟩
      show (db.attendances
          ++ [({ eventId := E, userId := U, checkInTime := some now, checkOutTime := none,
                 status := "CHECKED_IN", notes := none } : Attendance)]).find?
            (fun a => a.eventId == E && a.userId == U) = _
      rw [List.find?_append]
      have h1 : db.attendances.find? (fun a => a.eventId == E && a.userId == U) = none := hattc
      rw [h1]
      simp

/-- Witness for the amended C4: at `now = 101`, one past the deadline,
the strict check fires and auto-registration fails DeadlinePassed. -/
theorem checkInWithToken_autoregister_witness :
    checkInWithToken ctxA dbC4 "d" tokC4 "u" 101 = .error .deadlinePassed := by
  have h := @checkInWithToken_autoregister ctxA dbC4 "d" tokC4 "u" 101 evC4
    (by rfl) rfl rfl (fun a ha => Option.noConfusion ha) rfl
  exact h.1.mpr (by decide)

theorem findAttendance_update_self {db : DB} {E U : String} {a : Attendance}
    (g : Attendance → Attendance)
    (hg : ∀ x, (g x).eventId = x.eventId ∧ (g x).userId = x.userId)
    (ha : findAttendance db E U = some a) :
    (updateAttendances db.attendances E U g).find? (fun x => x.eventId == E && x.userId == U)
      = some (g a) := by
  have hh := findAttendance_updateAttendances db.attendances E U E U g hg
  rw [if_pos ⟨rfl, rfl⟩] at hh
  rw [hh, show db.attendances.find? (fun x => x.eventId == E && x.userId == U) = some a from ha]
  rfl

theorem findAttendance_append_none {db : DB} {E U : String} {row : Attendance}
    (ha : findAttendance db E U = none) :
    (db.attendances ++ [row]).find? (fun x => x.eventId == E && x.userId == U)
      = if (row.eventId == E && row.userId == U) = true then some row else none := by
  rw [List.find?_append,
    show db.attendances.find? (fun x => x.eventId == E && x.userId == U) = none from ha]
  cases hrow : (row.eventId == E && row.userId == U) with
  | true => simp [List.find?_cons, hrow]
  | false => simp [List.find?_cons, hrow]

/-- The attendance write at the end of a check-in, characterized. -/
theorem checkin_attpart {db db' : DB} {E U : String} {now : Nat}
    (g : Attendance → Attendance) (row : Attendance)
    (hb : (match findAttendance db E U with
      | some att =>
        if att.checkInTime.isSome = true then (.error .alreadyCheckedIn : Except ApiError DB)
        else .ok { db with attendances := updateAttendances db.attendances E U g }
      | none => .ok { db with attendances := db.attendances ++ [row] }) = .ok db')
    (hg : ∀ x, (g x).eventId = x.eventId ∧ (g x).userId = x.userId)
    (hgt : ∀ x, (g x).checkInTime = some now)
    (hrowE : row.eventId = E) (hrowU : row.userId = U) (hrowT : row.checkInTime = some now) :
    db'.events = db.events ∧ db'.registrations = db.registrations ∧
    ∃ a', findAttendance db' E U = some a' ∧ a'.checkInTime = some now := by
  cases hattc : findAttendance db E U with
  | some att =>
    simp only [hattc] at hb
    split_ifs at hb with h4
    injection hb with hb
    refine ⟨by rw [← hb], by rw [← hb], g att, ?_, hgt att⟩
    show findAttendance db' E U = _
    rw [← hb]
    exact findAttendance_update_self g hg hattc
  | none =>
    simp only [hattc] at hb
    injection hb with hb
    refine ⟨by rw [← hb], by rw [← hb], row, ?_, hrowT⟩
    show findAttendance db' E U = _
    rw [← hb]
    show ((db.attendances ++ _).find? fun x => x.eventId == E && x.userId == U) = _
    rw [findAttendance_append_none hattc]
    rw [if_pos (by simp [hrowE, hrowU])]

/-- Everything a successful `AttendanceService.checkIn` guarantees. -/
theorem attendanceCheckIn_ok_full {db db' : DB} {E U : String} {notes : Option String}
    {now : Nat} (h : attendanceCheckIn db E U notes now = .ok db') :
    ∃ ev, findEvent db E = some ev ∧ ev.isActive = true ∧ ev.startDate ≤ now ∧
      now ≤ ev.endDate ∧
      (ev.registrationRequired = true →
        ∃ r, findRegistration db E U = some r ∧ r.status = "CONFIRMED") ∧
      db'.events = db.events ∧ db'.registrations = db.registrations ∧
      ∃ a', findAttendance db' E U = some a' ∧ a'.checkInTime = some now := by
  unfold attendanceCheckIn at h
  cases hev : findEvent db E with
  | none => simp only [hev] at h; exact Except.noConfusion h
  | some ev =>
    simp only [hev] at h
    split_ifs at h with h1 h2 h3 hrr
    · -- registration required
      have hwrap : ∀ regfact : (ev.registrationRequired = true →
            ∃ r, findRegistration db E U = some r ∧ r.status = "CONFIRMED"),
          (match findAttendance db E U with
            | some att =>
              if att.checkInTime.isSome = true
                then (.error .alreadyCheckedIn : Except ApiError DB)
              else .ok { db with
                attendances := updateAttendances db.attendances E U
                  (fun a => { a with
                    checkInTime := some now, status := "CHECKED_IN",
                    notes := jsStrOr notes a.notes }) }
            | none => .ok { db with
                attendances := db.attendances
                  ++ [({ eventId := E, userId := U, checkInTime := some now,
                         checkOutTime := none, status := "CHECKED_IN",
                         notes := notes } : Attendance)] }) = .ok db' →
          ∃ ev2, findEvent db E = some ev2 ∧ ev2.isActive = true ∧ ev2.startDate ≤ now ∧
            now ≤ ev2.endDate ∧
            (ev2.registrationRequired = true →
              ∃ r, findRegistration db E U = some r ∧ r.status = "CONFIRMED") ∧
            db'.events = db.events ∧ db'.registrations = db.registrations ∧
            ∃ a', findAttendance db' E U = some a' ∧ a'.checkInTime = some now := by
        intro regfact hb
        obtain ⟨q1, q2, q3⟩ := checkin_attpart _ _ hb (fun x => ⟨rfl, rfl⟩) (fun x => rfl)
          rfl rfl rfl
        exact ⟨ev, hev, by simpa using h1, by omega, by omega, regfact, q1, q2, q3⟩
      cases hregf : findRegistration db E U with
      | none => simp only [hregf] at h; exact Except.noConfusion h
      | some r =>
        simp only [hregf] at h
        by_cases hstb : r.status = "CONFIRMED"
        · have hf : ¬((r.status != "CONFIRMED") = true) := by simp [hstb]
          rw [if_neg hf] at h
          have hfull := hwrap (fun _ => ⟨r, hregf, hstb⟩) h
          rw [hev, hregf] at hfull
          exact hfull
        · have ht : (r.status != "CONFIRMED") = true := by simp [hstb]
          rw [if_pos ht] at h
          exact Except.noConfusion h
    · -- registration not required
      have hfull : ∃ ev2, findEvent db E = some ev2 ∧ ev2.isActive = true ∧
          ev2.startDate ≤ now ∧ now ≤ ev2.endDate ∧
          (ev2.registrationRequired = true →
            ∃ r, findRegistration db E U = some r ∧ r.status = "CONFIRMED") ∧
          db'.events = db.events ∧ db'.registrations = db.registrations ∧
          ∃ a', findAttendance db' E U = some a' ∧ a'.checkInTime = some now := by
        obtain ⟨q1, q2, q3⟩ := checkin_attpart _ _ h (fun x => ⟨rfl, rfl⟩) (fun x => rfl)
          rfl rfl rfl
        exact ⟨ev, hev, by simpa using h1, by omega, by omega,
          fun hcon => absurd hcon hrr, q1, q2, q3⟩
      rw [hev] at hfull
      exact hfull

/-- Everything a successful `EventService.markAttendance` guarantees. -/
theorem markAttendance_ok_full {db db' : DB} {E U : String}
    {now : Nat} (h : markAttendance db E U now = .ok db') :
    ∃ ev, findEvent db E = some ev ∧ ev.isActive = true ∧ ev.startDate ≤ now ∧
      now ≤ ev.endDate ∧
      (ev.registrationRequired = true →
        ∃ r, findRegistration db E U = some r ∧ r.status = "CONFIRMED") ∧
      db'.events = db.events ∧ db'.registrations = db.registrations ∧
      ∃ a', findAttendance db' E U = some a' ∧ a'.checkInTime = some now := by
  unfold markAttendance at h
  cases hev : findEvent db E with
  | none => simp only [hev] at h; exact Except.noConfusion h
  | some ev =>
    simp only [hev] at h
    split_ifs at h with h1 h2 h3 hrr
    · have hwrap : ∀ regfact : (ev.registrationRequired = true →
            ∃ r, findRegistration db E U = some r ∧ r.status = "CONFIRMED"),
          (match findAttendance db E U with
            | some att =>
              if att.checkInTime.isSome = true
                then (.error .alreadyCheckedIn : Except ApiError DB)
              else .ok { db with
                attendances := updateAttendances db.attendances E U
                  (fun a => { a with checkInTime := some now, status := "CHECKED_IN" }) }
            | none => .ok { db with
                attendances := db.attendances
                  ++ [({ eventId := E, userId := U, checkInTime := some now,
                         checkOutTime := none, status := "CHECKED_IN",
                         notes := none } : Attendance)] }) = .ok db' →
          ∃ ev2, findEvent db E = some ev2 ∧ ev2.isActive = true ∧ ev2.startDate ≤ now ∧
            now ≤ ev2.endDate ∧
            (ev2.registrationRequired = true →
              ∃ r, findRegistration db E U = some r ∧ r.status = "CONFIRMED") ∧
            db'.events = db.events ∧ db'.registrations = db.registrations ∧
            ∃ a', findAttendance db' E U = some a' ∧ a'.checkInTime = some now := by
        intro regfact hb
        obtain ⟨q1, q2, q3⟩ := checkin_attpart _ _ hb (fun x => ⟨rfl, rfl⟩) (fun x => rfl)
          rfl rfl rfl
        exact ⟨ev, hev, by simpa using h1, by omega, by omega, regfact, q1, q2, q3⟩
      cases hregf : findRegistration db E U with
      | none => simp only [hregf] at h; exact Except.noConfusion h
      | some r =>
        simp only [hregf] at h
        by_cases hstb : r.status = "CONFIRMED"
        · have hf : ¬((r.status != "CONFIRMED") = true) := by simp [hstb]
          rw [if_neg hf] at h
          have hfull := hwrap (fun _ => ⟨r, hregf, hstb⟩) h
          rw [hev, hregf] at hfull
          exact hfull
        · have ht : (r.status != "CONFIRMED") = true := by simp [hstb]
          rw [if_pos ht] at h
          exact Except.noConfusion h
    · have hfull : ∃ ev2, findEvent db E = some ev2 ∧ ev2.isActive = true ∧
          ev2.startDate ≤ now ∧ now ≤ ev2.endDate ∧
          (ev2.registrationRequired = true →
            ∃ r, findRegistration db E U = some r ∧ r.status = "CONFIRMED") ∧
          db'.events = db.events ∧ db'.registrations = db.registrations ∧
          ∃ a', findAttendance db' E U = some a' ∧ a'.checkInTime = some now := by
        obtain ⟨q1, q2, q3⟩ := checkin_attpart _ _ h (fun x => ⟨rfl, rfl⟩) (fun x => rfl)
          rfl rfl rfl
        exact ⟨ev, hev, by simpa using h1, by omega, by omega,
          fun hcon => absurd hcon hrr, q1, q2, q3⟩
      rw [hev] at hfull
      exact hfull

/-- Everything a successful `checkOut` guarantees. -/
theorem checkOut_ok_full {db db' : DB} {E U : String} {notes : Option String}
    {now : Nat} (h : checkOut db E U notes now = .ok db') :
    db'.events = db.events ∧ db'.registrations = db.registrations ∧
    ∃ a', findAttendance db' E U = some a' ∧ a'.checkInTime.isSome = true ∧
      a'.checkOutTime = some now := by
  unfold checkOut at h
  cases hattc : findAttendance db E U with
  | none => simp only [hattc] at h; exact Except.noConfusion h
  | some att =>
    simp only [hattc] at h
    split_ifs at h with h1 h2
    injection h with h
    have hin : att.checkInTime.isSome = true := by
      cases hcc : att.checkInTime with
      | none => rw [hcc] at h1; simp at h1
      | some v => simp
    refine ⟨by rw [← h], by rw [← h],
      ({ att with checkOutTime := some now, status := "CHECKED_OUT", notes := jsStrOr notes att.notes } : Attendance),
      ?_, hin, rfl⟩
    show findAttendance db' E U = _
    rw [← h]
    exact findAttendance_update_self _ (fun x => ⟨rfl, rfl⟩) hattc

/-! ## Claim C5: the attendance state machine -/

theorem findEvent_congr {db db' : DB} (h : db'.events = db.events) (id : String) :
    findEvent db' id = findEvent db id := by
  unfold findEvent; rw [h]

theorem findRegistration_congr {db db' : DB} (h : db'.registrations = db.registrations)
    (E U : String) : findRegistration db' E U = findRegistration db E U := by
  unfold findRegistration; rw [h]

theorem findAttendance_congr {db db' : DB} (h : db'.attendances = db.attendances)
    (E U : String) : findAttendance db' E U = findAttendance db E U := by
  unfold findAttendance; rw [h]

theorem updateEvent_attendances {db db' : DB} {id : String} {u : UpdateEventDto}
    {uid role : String} (h : updateEvent db id u uid role = .ok db') :
    db'.attendances = db.attendances := by
  simp only [updateEvent] at h
  repeat' split at h
  all_goals first
    | exact Except.noConfusion h
    | (injection h with h; subst h; rfl)

theorem registerForEvent_attendances {db db' : DB} {E U : String} {now : Nat}
    (h : registerForEvent db E U now = .ok db') : db'.attendances = db.attendances := by
  simp only [registerForEvent] at h
  repeat' split at h
  all_goals first
    | exact Except.noConfusion h
    | (injection h with h; subst h; rfl)

theorem cancelRegistration_attendances {db db' : DB} {E U : String} {now : Nat}
    (h : cancelRegistration db E U now = .ok db') : db'.attendances = db.attendances := by
  simp only [cancelRegistration] at h
  repeat' split at h
  all_goals first
    | exact Except.noConfusion h
    | (injection h with h; subst h; rfl)

theorem autoRegister_attendances {db db₁ : DB} {ev : Event} {E U : String} {now : Nat}
    (h : autoRegister db ev E U now = .ok db₁) : db₁.attendances = db.attendances := by
  simp only [autoRegister] at h
  repeat' split at h
  all_goals first
    | exact Except.noConfusion h
    | (injection h with h; subst h; rfl)

theorem revokeQRCode_attendances {db db' : DB} {E : String}
    (h : revokeQRCode db E = .ok db') : db'.attendances = db.attendances := by
  simp only [revokeQRCode] at h
  repeat' split at h
  all_goals first
    | exact Except.noConfusion h
    | (injection h with h; subst h; rfl)

/-- The attendance write at the end of a check-in yields an
`attEffect`. -/
theorem checkin_attpart_eff {db db' : DB} {E U : String}
    (g : Attendance → Attendance) (row : Attendance)
    (hb : (match findAttendance db E U with
      | some att =>
        if att.checkInTime.isSome = true then (.error .alreadyCheckedIn : Except ApiError DB)
        else .ok { db with attendances := updateAttendances db.attendances E U g }
      | none => .ok { db with attendances := db.attendances ++ [row] }) = .ok db')
    (hg : ∀ x, (g x).eventId = x.eventId ∧ (g x).userId = x.userId) :
    attEffect db db' E U := by
  cases hattc : findAttendance db E U with
  | some att =>
    simp only [hattc] at hb
    split_ifs at hb with h4
    injection hb with hb
    exact Or.inl ⟨att, hattc, Or.inl (Option.not_isSome_iff_eq_none.mp h4), g, hg,
      by rw [← hb]⟩
  | none =>
    simp only [hattc] at hb
    injection hb with hb
    exact Or.inr (Or.inl ⟨row, by rw [← hb]⟩)

theorem attendanceCheckIn_attEffect {db db' : DB} {E U : String} {notes : Option String}
    {now : Nat} (h : attendanceCheckIn db E U notes now = .ok db') :
    attEffect db db' E U := by
  unfold attendanceCheckIn at h
  cases hev : findEvent db E with
  | none => simp only [hev] at h; exact Except.noConfusion h
  | some ev =>
    simp only [hev] at h
    split_ifs at h with h1 h2 h3 hrr
    · cases hregf : findRegistration db E U with
      | none => simp only [hregf] at h; exact Except.noConfusion h
      | some r =>
        simp only [hregf] at h
        by_cases hst : (r.status != "CONFIRMED") = true
        · rw [if_pos hst] at h
          exact Except.noConfusion h
        · rw [if_neg hst] at h
          exact checkin_attpart_eff _ _ h (fun x => ⟨rfl, rfl⟩)
    · exact checkin_attpart_eff _ _ h (fun x => ⟨rfl, rfl⟩)

theorem eventCheckIn_attEffect {db db' : DB} {E U : String} {notes : Option String}
    {now : Nat} (h : eventCheckIn db E U notes now = .ok db') :
    attEffect db db' E U := by
  unfold eventCheckIn at h
  cases hev : findEvent db E with
  | none => simp only [hev] at h; exact Except.noConfusion h
  | some ev =>
    simp only [hev] at h
    split_ifs at h with h1 h2 h3 h4
    exact checkin_attpart_eff _ _ h (fun x => ⟨rfl, rfl⟩)

theorem markAttendance_attEffect {db db' : DB} {E U : String}
    {now : Nat} (h : markAttendance db E U now = .ok db') :
    attEffect db db' E U := by
  unfold markAttendance at h
  cases hev : findEvent db E with
  | none => simp only [hev] at h; exact Except.noConfusion h
  | some ev =>
    simp only [hev] at h
    split_ifs at h with h1 h2 h3 hrr
    · cases hregf : findRegistration db E U with
      | none => simp only [hregf] at h; exact Except.noConfusion h
      | some r =>
        simp only [hregf] at h
        by_cases hst : (r.status != "CONFIRMED") = true
        · rw [if_pos hst] at h
          exact Except.noConfusion h
        · rw [if_neg hst] at h
          exact checkin_attpart_eff _ _ h (fun x => ⟨rfl, rfl⟩)
    · exact checkin_attpart_eff _ _ h (fun x => ⟨rfl, rfl⟩)

theorem checkOut_attEffect {db db' : DB} {E U : String} {notes : Option String}
    {now : Nat} (h : checkOut db E U notes now = .ok db') :
    attEffect db db' E U := by
  unfold checkOut at h
  cases hattc : findAttendance db E U with
  | none => simp only [hattc] at h; exact Except.noConfusion h
  | some att =>
    simp only [hattc] at h
    split_ifs at h with h1 h2
    injection h with h
    exact Or.inl ⟨att, hattc, Or.inr (Option.not_isSome_iff_eq_none.mp h2),
      (fun a => { a with checkOutTime := some now, status := "CHECKED_OUT", notes := jsStrOr notes a.notes }),
      (fun x => ⟨rfl, rfl⟩), by rw [← h]⟩

theorem checkInWithToken_attEffect {ctx : QRCtx} {db db' : DB} {E tok U : String} {now : Nat}
    (h : checkInWithToken ctx db E tok U now = .ok db') :
    attEffect db db' E U := by
  unfold checkInWithToken at h
  cases hval : validateCheckinToken ctx db E tok now with
  | error e => simp only [hval] at h; exact Except.noConfusion h
  | ok ev0 =>
    simp only [hval] at h
    cases hev : findEvent db E with
    | none => simp only [hev] at h; exact Except.noConfusion h
    | some ev =>
      simp only [hev] at h
      cases hatt : findAttendance db E U with
      | some att =>
        simp only [hatt] at h
        split_ifs at h with h1
        cases hauto : autoRegister db ev E U now with
        | error e => simp only [hauto] at h; exact Except.noConfusion h
        | ok db₁ =>
          simp only [hauto] at h
          injection h with h
          have hA := autoRegister_attendances hauto
          refine Or.inl ⟨att, hatt, Or.inl (Option.not_isSome_iff_eq_none.mp h1),
            (fun a => { a with checkInTime := some now, status := "CHECKED_IN" }),
            (fun x => ⟨rfl, rfl⟩), ?_⟩
          rw [← h, hA]
      | none =>
        simp only [hatt] at h
        cases hauto : autoRegister db ev E U now with
        | error e => simp only [hauto] at h; exact Except.noConfusion h
        | ok db₁ =>
          simp only [hauto] at h
          injection h with h
          have hA := autoRegister_attendances hauto
          refine Or.inr (Or.inl ⟨({ eventId := E, userId := U, checkInTime := some now, checkOutTime := none, status := "CHECKED_IN", notes := none } : Attendance), ?_⟩)
          rw [← h, hA]

theorem validateAndCheckIn_attEffect {ctx : QRCtx} {db db' : DB} {qrData U : String}
    {now : Nat} (h : validateAndCheckIn ctx db qrData U now = .ok db') :
    ∃ eid, attEffect db db' eid U := by
  simp only [validateAndCheckIn] at h
  split_ifs at h with h1
  cases hpq : (jsSplit qrData ':')[1]? with
  | none => simp only [hpq] at h; exact Except.noConfusion h
  | some eid =>
    simp only [hpq] at h
    cases hq : findActiveQR db eid qrData with
    | none => simp only [hq] at h; exact Except.noConfusion h
    | some q =>
      simp only [hq] at h
      split_ifs at h with h2
      cases hev : findEvent db eid with
      | none => simp only [hev] at h; exact Except.noConfusion h
      | some ev =>
        simp only [hev] at h
        split_ifs at h with h3 h4 h5
        cases hatt : findAttendance db eid U with
        | some att =>
          simp only [hatt] at h
          split_ifs at h with h6
          cases hauto : autoRegister db ev eid U now with
          | error e => simp only [hauto] at h; exact Except.noConfusion h
          | ok db₁ =>
            simp only [hauto] at h
            injection h with h
            have hA := autoRegister_attendances hauto
            refine ⟨eid, Or.inl ⟨att, hatt, Or.inl (Option.not_isSome_iff_eq_none.mp h6),
              (fun a => { a with checkInTime := some now, status := "CHECKED_IN" }),
              (fun x => ⟨rfl, rfl⟩), ?_⟩⟩
            rw [← h, hA]
        | none =>
          simp only [hatt] at h
          cases hauto : autoRegister db ev eid U now with
          | error e => simp only [hauto] at h; exact Except.noConfusion h
          | ok db₁ =>
            simp only [hauto] at h
            injection h with h
            have hA := autoRegister_attendances hauto
            refine ⟨eid, Or.inr (Or.inl ⟨({ eventId := eid, userId := U, checkInTime := some now, checkOutTime := none, status := "CHECKED_IN", notes := none } : Attendance), ?_⟩)⟩
            rw [← h, hA]

/-- A CHECKED_OUT pair survives an unchanged attendance table. -/
theorem checkedOut_congr {db db' : DB} {E U : String} (h : db'.attendances = db.attendances)
    (hco : checkedOut db E U) : checkedOut db' E U := by
  obtain ⟨a, ha, hin, hout⟩ := hco
  exact ⟨a, by rw [findAttendance_congr h]; exact ha, hin, hout⟩

/-- A CHECKED_OUT pair survives any `attEffect`: an update at its own
key is impossible (its guard needs a missing timestamp), an update at
another key or an append leaves its row as the first hit. -/
theorem checkedOut_of_attEffect {db db' : DB} {E2 U2 E U : String}
    (he : attEffect db db' E2 U2) (hco : checkedOut db E U) : checkedOut db' E U := by
  obtain ⟨a, ha, hin, hout⟩ := hco
  rcases he with ⟨att, hatt, hguard, f, hf, heq⟩ | ⟨row, heq⟩ | heq
  · by_cases hkey : E2 = E ∧ U2 = U
    · obtain ⟨hE, hU⟩ := hkey
      subst hE; subst hU
      rw [hatt] at ha
      injection ha with ha
      subst ha
      rcases hguard with hg1 | hg2
      · rw [hg1] at hin; simp at hin
      · rw [hg2] at hout; simp at hout
    · refine ⟨a, ?_, hin, hout⟩
      show db'.attendances.find? (fun x => x.eventId == E && x.userId == U) = some a
      rw [heq]
      have hh := findAttendance_updateAttendances db.attendances E2 U2 E U f hf
      rw [if_neg hkey] at hh
      rw [hh]
      exact ha
  · refine ⟨a, ?_, hin, hout⟩
    show db'.attendances.find? (fun x => x.eventId == E && x.userId == U) = some a
    rw [heq, List.find?_append,
      show db.attendances.find? (fun x => x.eventId == E && x.userId == U) = some a from ha]
    rfl
  · refine ⟨a, ?_, hin, hout⟩
    show db'.attendances.find? (fun x => x.eventId == E && x.userId == U) = some a
    rw [heq]
    exact ha

/-- No public operation disturbs a CHECKED_OUT pair. -/
theorem applyOp_checkedOut {ctx : QRCtx} {db db' : DB} {op : Op} {E U : String}
    (hco : checkedOut db E U) (h : applyOp ctx db op = .ok db') : checkedOut db' E U := by
  cases op with
  | update id u uid role =>
    exact checkedOut_congr (updateEvent_attendances (h : updateEvent db id u uid role = .ok db')) hco
  | register E2 U2 now =>
    exact checkedOut_congr (registerForEvent_attendances (h : registerForEvent db E2 U2 now = .ok db')) hco
  | cancel E2 U2 now =>
    exact checkedOut_congr (cancelRegistration_attendances (h : cancelRegistration db E2 U2 now = .ok db')) hco
  | checkInAttendance E2 U2 notes now =>
    exact checkedOut_of_attEffect
      (attendanceCheckIn_attEffect (h : attendanceCheckIn db E2 U2 notes now = .ok db')) hco
  | checkInEvent E2 U2 notes now =>
    exact checkedOut_of_attEffect
      (eventCheckIn_attEffect (h : eventCheckIn db E2 U2 notes now = .ok db')) hco
  | mark E2 U2 now =>
    exact checkedOut_of_attEffect
      (markAttendance_attEffect (h : markAttendance db E2 U2 now = .ok db')) hco
  | checkout E2 U2 notes now =>
    exact checkedOut_of_attEffect
      (checkOut_attEffect (h : checkOut db E2 U2 notes now = .ok db')) hco
  | qrGenerate E2 hrs now =>
    have h' : (match generateEventQR ctx db E2 hrs now with
      | .error er => (.error er : Except ApiError DB)
      | .ok (db', _) => .ok db') = .ok db' := h
    cases hg : generateEventQR ctx db E2 hrs now with
    | error er => simp only [hg] at h'; exact Except.noConfusion h'
    | ok p =>
      obtain ⟨pdb, ptok⟩ := p
      simp only [hg] at h'
      injection h' with h'
      obtain ⟨_, _, q3⟩ := generateEventQR_shape hg
      exact checkedOut_congr (by rw [← h']; exact q3) hco
  | qrCheckInToken E2 t U2 now =>
    exact checkedOut_of_attEffect
      (checkInWithToken_attEffect (h : checkInWithToken ctx db E2 t U2 now = .ok db')) hco
  | qrSelf q U2 now =>
    obtain ⟨eid, he⟩ := @validateAndCheckIn_attEffect ctx db db' q U2 now
      (h : validateAndCheckIn ctx db q U2 now = .ok db')
    exact checkedOut_of_attEffect he hco
  | qrRevoke E2 =>
    exact checkedOut_congr (revokeQRCode_attendances (h : revokeQRCode db E2 = .ok db')) hco
  | qrCleanup now =>
    have h' : Except.ok (cleanupExpiredQRCodes db now) = .ok db' := h
    injection h' with h'
    exact checkedOut_congr (by rw [← h']; rfl) hco

/-- C5, counterexample: the claim says "CheckOut before any CheckIn
fails NotCheckedIn", but when no attendance row exists at all the code
throws 404 "Attendance record not found" (`attendanceNotFound`), not
`notCheckedIn`; the latter only fires when a row exists with a null
`checkInTime`. -/
theorem checkout_before_checkin_wrong_error :
    checkOut dbC5 "e" "u" none 10 = .error .attendanceNotFound ∧
    ApiError.attendanceNotFound ≠ ApiError.notCheckedIn :=
  ⟨rfl, by decide⟩

/-- C5, amended: the attendance state machine as coded.  (1) A second
`CheckIn` after a successful one fails `alreadyCheckedIn` whenever it
is attempted inside the event window; (2) `CheckOut` with no attendance
row fails `attendanceNotFound` (not `notCheckedIn` as claimed); (3)
`CheckOut` on a row without a check-in time fails `notCheckedIn`; (4) a
second `CheckOut` after a successful one fails `alreadyCheckedOut`; (5)
CHECKED_OUT is terminal: no successful public operation removes or
degrades the pair's both-timestamps-set configuration. -/
theorem attendance_state_machine (E U : String) :
    (∀ (db db' : DB) (n₁ n₂ : Option String) (now now₂ : Nat),
      attendanceCheckIn db E U n₁ now = .ok db' →
      (∀ ev, findEvent db E = some ev → ev.startDate ≤ now₂ ∧ now₂ ≤ ev.endDate) →
      attendanceCheckIn db' E U n₂ now₂ = .error .alreadyCheckedIn) ∧
    (∀ (db : DB) (n : Option String) (now : Nat), findAttendance db E U = none →
      checkOut db E U n now = .error .attendanceNotFound) ∧
    (∀ (db : DB) (a : Attendance) (n : Option String) (now : Nat),
      findAttendance db E U = some a → a.checkInTime = none →
      checkOut db E U n now = .error .notCheckedIn) ∧
    (∀ (db db' : DB) (n₁ n₂ : Option String) (now now₂ : Nat),
      checkOut db E U n₁ now = .ok db' →
      checkOut db' E U n₂ now₂ = .error .alreadyCheckedOut) ∧
    (∀ (ctx : QRCtx) (op : Op) (db db' : DB),
      checkedOut db E U → applyOp ctx db op = .ok db' → checkedOut db' E U) := by
  refine ⟨?_, ?_, ?_, ?_, ?_⟩
  · intro db db' n₁ n₂ now now₂ h hwin
    obtain ⟨ev, hev, hact, hsd, hed, regfact, hE, hR, a', ha', hcin⟩ :=
      attendanceCheckIn_ok_full h
    obtain ⟨hw1, hw2⟩ := hwin ev hev
    have hfe : findEvent db' E = some ev := by rw [findEvent_congr hE]; exact hev
    unfold attendanceCheckIn
    simp only [hfe, hact, Bool.not_true, Bool.false_eq_true, if_false]
    rw [if_neg (by omega : ¬ now₂ < ev.startDate), if_neg (by omega : ¬ ev.endDate < now₂)]
    by_cases hrr : ev.registrationRequired = true
    · obtain ⟨r, hregf, hst⟩ := regfact hrr
      have hfr : findRegistration db' E U = some r := by
        rw [findRegistration_congr hR]; exact hregf
      have hstf : (r.status != "CONFIRMED") = false := by simp [hst]
      simp only [if_pos hrr, hfr, hstf, Bool.false_eq_true, if_false]
      simp only [ha', hcin]
      rfl
    · simp only [if_neg hrr]
      simp only [ha', hcin]
      rfl
  · intro db n now hnone
    unfold checkOut
    simp only [hnone]
  · intro db a n now hsome hnone
    unfold checkOut
    simp only [hsome, hnone]
    rfl
  · intro db db' n₁ n₂ now now₂ h
    obtain ⟨hE, hR, a', ha', hin, hout⟩ := checkOut_ok_full h
    have hinn : a'.checkInTime.isNone = false := by
      cases hc : a'.checkInTime with
      | none => rw [hc] at hin; simp at hin
      | some v => rfl
    unfold checkOut
    simp only [ha', hinn, Bool.false_eq_true, if_false, hout]
    rfl
  · intro ctx op db db' hco h
    exact applyOp_checkedOut hco h

/-- Witness for the amended C5: a concrete run `check in at 5, check
out at 7` on `dbW5`, exercising each conjunct. -/
theorem attendance_state_machine_witness :
    attendanceCheckIn dbW5a "e" "u" none 6 = .error .alreadyCheckedIn ∧
    checkOut dbW5 "e" "u" none 7 = .error .attendanceNotFound ∧
    checkOut dbW5n "e" "u" none 7 = .error .notCheckedIn ∧
    checkOut dbW5b "e" "u" none 9 = .error .alreadyCheckedOut ∧
    checkedOut (cleanupExpiredQRCodes dbW5b 0) "e" "u" := by
  obtain ⟨h1, h2, h3, h4, h5⟩ := attendance_state_machine "e" "u"
  refine ⟨?_, ?_, ?_, ?_, ?_⟩
  · refine h1 dbW5 dbW5a none none 5 6 rfl ?_
    intro ev hev
    have h0 : findEvent dbW5 "e"
        = some { id := "e", startDate := 0, endDate := 1000 } := rfl
    rw [h0] at hev
    injection hev with hev
    rw [← hev]
    exact ⟨by decide, by decide⟩
  · exact h2 dbW5 none 7 rfl
  · exact h3 dbW5n attW5n none 7 rfl rfl
  · exact h4 dbW5a dbW5b none none 7 9 rfl
  · exact h5 ctxA (Op.qrCleanup 0) dbW5b (cleanupExpiredQRCodes dbW5b 0)
      ⟨attW5b, rfl, rfl, rfl⟩ rfl

/-! ## Claim C6: the registration gate on check-in -/

/-- C6, counterexample: `EventService.checkIn` — one of the check-in
operations the claim covers — only tests that a registration row
EXISTS; on `dbC6`, whose registration is PENDING, it succeeds instead
of failing `registrationNotConfirmed`. -/
theorem eventCheckIn_accepts_unconfirmed :
    (findRegistration dbC6 "e" "u").map Registration.status = some "PENDING" ∧
    (findEvent dbC6 "e").map Event.registrationRequired = some true ∧
    (eventCheckIn dbC6 "e" "u" none 10).isOk = true :=
  ⟨rfl, rfl, rfl⟩

/-- C6, amended: on an ongoing registration-required event,
`AttendanceService.checkIn` and `EventService.markAttendance` behave as
claimed — `userNotRegistered` with no registration row,
`registrationNotConfirmed` on a non-CONFIRMED one, and success implies
a CONFIRMED registration — but `EventService.checkIn` only enforces
EXISTENCE: it fails `userNotRegistered` with no row, yet with a row of
any status it never returns `userNotRegistered` or
`registrationNotConfirmed`. -/
theorem checkin_registration_gate (db : DB) (E U : String) (notes : Option String)
    (now : Nat) (ev : Event)
    (hev : findEvent db E = some ev) (hact : ev.isActive = true)
    (hsd : ev.startDate ≤ now) (hed : now ≤ ev.endDate)
    (hreq : ev.registrationRequired = true) :
    (findRegistration db E U = none →
      attendanceCheckIn db E U notes now = .error .userNotRegistered ∧
      markAttendance db E U now = .error .userNotRegistered ∧
      eventCheckIn db E U notes now = .error .userNotRegistered) ∧
    (∀ r, findRegistration db E U = some r → r.status ≠ "CONFIRMED" →
      attendanceCheckIn db E U notes now = .error .registrationNotConfirmed ∧
      markAttendance db E U now = .error .registrationNotConfirmed) ∧
    (∀ db', attendanceCheckIn db E U notes now = .ok db' →
      ∃ r, findRegistration db E U = some r ∧ r.status = "CONFIRMED") ∧
    (∀ db', markAttendance db E U now = .ok db' →
      ∃ r, findRegistration db E U = some r ∧ r.status = "CONFIRMED") ∧
    (∀ r, findRegistration db E U = some r →
      eventCheckIn db E U notes now ≠ .error .userNotRegistered ∧
      eventCheckIn db E U notes now ≠ .error .registrationNotConfirmed) := by
  refine ⟨?_, ?_, ?_, ?_, ?_⟩
  · intro hnone
    refine ⟨?_, ?_, ?_⟩
    · unfold attendanceCheckIn
      simp only [hev, hact, Bool.not_true, Bool.false_eq_true, if_false]
      rw [if_neg (by omega : ¬ now < ev.startDate), if_neg (by omega : ¬ ev.endDate < now)]
      simp only [if_pos hreq, hnone]
    · unfold markAttendance
      simp only [hev, hact, Bool.not_true, Bool.false_eq_true, if_false]
      rw [if_neg (by omega : ¬ now < ev.startDate), if_neg (by omega : ¬ ev.endDate < now)]
      simp only [if_pos hreq, hnone]
    · unfold eventCheckIn
      simp only [hev, hact, Bool.not_true, Bool.false_eq_true, if_false]
      rw [if_neg (by omega : ¬ now < ev.startDate), if_neg (by omega : ¬ ev.endDate < now)]
      rw [if_pos (by rw [hreq, hnone]; rfl :
        (ev.registrationRequired && (findRegistration db E U).isNone) = true)]
  · intro r hregf hst
    have hst' : (r.status != "CONFIRMED") = true := by simp [hst]
    refine ⟨?_, ?_⟩
    · unfold attendanceCheckIn
      simp only [hev, hact, Bool.not_true, Bool.false_eq_true, if_false]
      rw [if_neg (by omega : ¬ now < ev.startDate), if_neg (by omega : ¬ ev.endDate < now)]
      simp only [if_pos hreq, hregf, hst', if_true]
    · unfold markAttendance
      simp only [hev, hact, Bool.not_true, Bool.false_eq_true, if_false]
      rw [if_neg (by omega : ¬ now < ev.startDate), if_neg (by omega : ¬ ev.endDate < now)]
      simp only [if_pos hreq, hregf, hst', if_true]
  · intro db' h
    obtain ⟨ev', hev', _, _, _, regfact, _, _, _⟩ := attendanceCheckIn_ok_full h
    have hee : ev' = ev := by rw [hev] at hev'; exact (Option.some_inj.mp hev').symm
    exact regfact (by rw [hee]; exact hreq)
  · intro db' h
    obtain ⟨ev', hev', _, _, _, regfact, _, _, _⟩ := markAttendance_ok_full h
    have hee : ev' = ev := by rw [hev] at hev'; exact (Option.some_inj.mp hev').symm
    exact regfact (by rw [hee]; exact hreq)
  · intro r hregf
    have hshape : eventCheckIn db E U notes now = .error .alreadyCheckedIn ∨
        ∃ db', eventCheckIn db E U notes now = .ok db' := by
      unfold eventCheckIn
      simp only [hev, hact, Bool.not_true, Bool.false_eq_true, if_false]
      rw [if_neg (by omega : ¬ now < ev.startDate), if_neg (by omega : ¬ ev.endDate < now)]
      rw [if_neg (by rw [hregf]; simp :
        ¬ ((ev.registrationRequired && (findRegistration db E U).isNone) = true))]
      cases hatt : findAttendance db E U with
      | some att =>
        simp only [hatt]
        by_cases hi : att.checkInTime.isSome = true
        · rw [if_pos hi]; exact Or.inl rfl
        · rw [if_neg hi]; exact Or.inr ⟨_, rfl⟩
      | none =>
        simp only [hatt]
        exact Or.inr ⟨_, rfl⟩
    refine ⟨?_, ?_⟩
    · rcases hshape with hs | ⟨db', hs⟩
      · rw [hs]; intro hcon; injection hcon with hc; exact ApiError.noConfusion hc
      · rw [hs]; intro hcon; exact Except.noConfusion hcon
    · rcases hshape with hs | ⟨db', hs⟩
      · rw [hs]; intro hcon; injection hcon with hc; exact ApiError.noConfusion hc
      · rw [hs]; intro hcon; exact Except.noConfusion hcon

/-- Witness for the amended C6: on `dbC6` (PENDING registration) the
two status-checking operations fail `registrationNotConfirmed` while
`EventService.checkIn` does not; on `dbC6n` (no registration) check-in
fails `userNotRegistered`. -/
theorem checkin_registration_gate_witness :
    attendanceCheckIn dbC6n "e" "u" none 10 = .error .userNotRegistered ∧
    attendanceCheckIn dbC6 "e" "u" none 10 = .error .registrationNotConfirmed ∧
    markAttendance dbC6 "e" "u" 10 = .error .registrationNotConfirmed ∧
    eventCheckIn dbC6 "e" "u" none 10 ≠ .error .registrationNotConfirmed := by
  have g1 := checkin_registration_gate dbC6n "e" "u" none 10 evC6 rfl rfl
    (by decide) (by decide) rfl
  have g2 := checkin_registration_gate dbC6 "e" "u" none 10 evC6 rfl rfl
    (by decide) (by decide) rfl
  exact ⟨(g1.1 rfl).1, (g2.2.1 regC6 rfl (by decide)).1,
    (g2.2.1 regC6 rfl (by decide)).2, (g2.2.2.2.2 regC6 rfl).2⟩

/-! ## Claim C7: the single-active-QR invariant -/

theorem countP_map_le (l : List QRCodeRow) (f : QRCodeRow → QRCodeRow) (p : QRCodeRow → Bool)
    (hf : ∀ a, p (f a) = true → p a = true) :
    (l.map f).countP p ≤ l.countP p := by
  induction l with
  | nil => simp
  | cons a t ih =>
    rw [List.map_cons, List.countP_cons, List.countP_cons]
    cases hpa : p (f a) with
    | true =>
      rw [hf a hpa]
      have h1 : (if true = true then 1 else 0) = 1 := rfl
      rw [h1]
      omega
    | false =>
      have h0 : (if false = true then 1 else 0) = 0 := rfl
      rw [h0]
      by_cases hq : p a = true
      · rw [if_pos hq]
        omega
      · rw [if_neg hq]
        omega

theorem countP_deactivated (l : List QRCodeRow) (E : String) :
    (l.map (fun q =>
      if q.eventId == E && q.isActive then { q with isActive := false } else q)).countP
      (fun q => q.eventId == E && q.isActive) = 0 := by
  induction l with
  | nil => rfl
  | cons a t ih =>
    simp only [List.map_cons, List.countP_cons, ih]
    by_cases hcond : (a.eventId == E && a.isActive) = true
    · rw [if_pos hcond]
      simp
    · rw [if_neg hcond]
      simp only [Bool.not_eq_true] at hcond
      simp [hcond]

theorem find_deactivated_none (l : List QRCodeRow) (E t : String) :
    (l.map (fun q =>
      if q.eventId == E && q.isActive then { q with isActive := false } else q)).find?
      (fun q => q.eventId == E && q.qrData == t && q.isActive) = none := by
  rw [List.find?_eq_none]
  intro q hq hpq
  obtain ⟨a, ha, rfl⟩ := List.mem_map.mp hq
  by_cases hcond : (a.eventId == E && a.isActive) = true
  · rw [if_pos hcond] at hpq
    simp at hpq
  · rw [if_neg hcond] at hpq
    simp only [Bool.and_eq_true] at hpq
    apply hcond
    rw [hpq.1.1, hpq.2]
    rfl

theorem countP_deactivateFirst_le (l : List QRCodeRow) (E eid : String) :
    (deactivateFirst l E).countP (fun q => q.eventId == eid && q.isActive)
      ≤ l.countP (fun q => q.eventId == eid && q.isActive) := by
  induction l with
  | nil => simp [deactivateFirst]
  | cons a t ih =>
    unfold deactivateFirst
    by_cases hcond : (a.eventId == E && a.isActive) = true
    · rw [if_pos hcond]
      rw [List.countP_cons, List.countP_cons]
      have hfalse : (({ a with isActive := false } : QRCodeRow).eventId == eid
          && ({ a with isActive := false } : QRCodeRow).isActive) = false := by simp
      rw [hfalse]
      have h0 : (if false = true then 1 else 0) = 0 := rfl
      rw [h0]
      by_cases hq : (a.eventId == eid && a.isActive) = true
      · rw [if_pos hq]
        omega
      · rw [if_neg hq]
    · rw [if_neg hcond]
      rw [List.countP_cons, List.countP_cons]
      by_cases hq : (a.eventId == eid && a.isActive) = true
      · rw [if_pos hq]
        omega
      · rw [if_neg hq]
        omega

/-- `qrInv` only looks at the QR table. -/
theorem qrInv_congr {db db' : DB} (h : db'.qrcodes = db.qrcodes) (hinv : qrInv db) :
    qrInv db' := by
  intro eid
  rw [qrInv] at hinv
  calc db'.qrcodes.countP (fun q => q.eventId == eid && q.isActive)
      = db.qrcodes.countP (fun q => q.eventId == eid && q.isActive) := by rw [h]
    _ ≤ 1 := hinv eid

theorem updateEvent_qrcodes {db db' : DB} {id : String} {u : UpdateEventDto}
    {uid role : String} (h : updateEvent db id u uid role = .ok db') :
    db'.qrcodes = db.qrcodes := by
  simp only [updateEvent] at h
  repeat' split at h
  all_goals first
    | exact Except.noConfusion h
    | (injection h with h; subst h; rfl)

theorem registerForEvent_qrcodes {db db' : DB} {E U : String} {now : Nat}
    (h : registerForEvent db E U now = .ok db') : db'.qrcodes = db.qrcodes := by
  simp only [registerForEvent] at h
  repeat' split at h
  all_goals first
    | exact Except.noConfusion h
    | (injection h with h; subst h; rfl)

theorem cancelRegistration_qrcodes {db db' : DB} {E U : String} {now : Nat}
    (h : cancelRegistration db E U now = .ok db') : db'.qrcodes = db.qrcodes := by
  simp only [cancelRegistration] at h
  repeat' split at h
  all_goals first
    | exact Except.noConfusion h
    | (injection h with h; subst h; rfl)

theorem autoRegister_qrcodes {db db₁ : DB} {ev : Event} {E U : String} {now : Nat}
    (h : autoRegister db ev E U now = .ok db₁) : db₁.qrcodes = db.qrcodes := by
  simp only [autoRegister] at h
  repeat' split at h
  all_goals first
    | exact Except.noConfusion h
    | (injection h with h; subst h; rfl)

theorem attendanceCheckIn_qrcodes {db db' : DB} {E U : String} {notes : Option String}
    {now : Nat} (h : attendanceCheckIn db E U notes now = .ok db') :
    db'.qrcodes = db.qrcodes := by
  simp only [attendanceCheckIn] at h
  repeat' split at h
  all_goals first
    | exact Except.noConfusion h
    | (injection h with h; subst h; rfl)

theorem eventCheckIn_qrcodes {db db' : DB} {E U : String} {notes : Option String}
    {now : Nat} (h : eventCheckIn db E U notes now = .ok db') :
    db'.qrcodes = db.qrcodes := by
  simp only [eventCheckIn] at h
  repeat' split at h
  all_goals first
    | exact Except.noConfusion h
    | (injection h with h; subst h; rfl)

theorem markAttendance_qrcodes {db db' : DB} {E U : String}
    {now : Nat} (h : markAttendance db E U now = .ok db') :
    db'.qrcodes = db.qrcodes := by
  simp only [markAttendance] at h
  repeat' split at h
  all_goals first
    | exact Except.noConfusion h
    | (injection h with h; subst h; rfl)

theorem checkOut_qrcodes {db db' : DB} {E U : String} {notes : Option String}
    {now : Nat} (h : checkOut db E U notes now = .ok db') :
    db'.qrcodes = db.qrcodes := by
  simp only [checkOut] at h
  repeat' split at h
  all_goals first
    | exact Except.noConfusion h
    | (injection h with h; subst h; rfl)

theorem checkInWithToken_qrcodes {ctx : QRCtx} {db db' : DB} {E tok U : String} {now : Nat}
    (h : checkInWithToken ctx db E tok U now = .ok db') : db'.qrcodes = db.qrcodes := by
  unfold checkInWithToken at h
  cases hval : validateCheckinToken ctx db E tok now with
  | error e => simp only [hval] at h; exact Except.noConfusion h
  | ok ev0 =>
    simp only [hval] at h
    cases hev : findEvent db E with
    | none => simp only [hev] at h; exact Except.noConfusion h
    | some ev =>
      simp only [hev] at h
      cases hatt : findAttendance db E U with
      | some att =>
        simp only [hatt] at h
        split_ifs at h with h1
        cases hauto : autoRegister db ev E U now with
        | error e => simp only [hauto] at h; exact Except.noConfusion h
        | ok db₁ =>
          simp only [hauto] at h
          injection h with h
          rw [← h]
          show db₁.qrcodes = db.qrcodes
          exact autoRegister_qrcodes hauto
      | none =>
        simp only [hatt] at h
        cases hauto : autoRegister db ev E U now with
        | error e => simp only [hauto] at h; exact Except.noConfusion h
        | ok db₁ =>
          simp only [hauto] at h
          injection h with h
          rw [← h]
          show db₁.qrcodes = db.qrcodes
          exact autoRegister_qrcodes hauto

theorem validateAndCheckIn_qrcodes {ctx : QRCtx} {db db' : DB} {qrData U : String}
    {now : Nat} (h : validateAndCheckIn ctx db qrData U now = .ok db') :
    db'.qrcodes = db.qrcodes := by
  simp only [validateAndCheckIn] at h
  split_ifs at h with h1
  cases hpq : (jsSplit qrData ':')[1]? with
  | none => simp only [hpq] at h; exact Except.noConfusion h
  | some eid =>
    simp only [hpq] at h
    cases hq : findActiveQR db eid qrData with
    | none => simp only [hq] at h; exact Except.noConfusion h
    | some q =>
      simp only [hq] at h
      split_ifs at h with h2
      cases hev : findEvent db eid with
      | none => simp only [hev] at h; exact Except.noConfusion h
      | some ev =>
        simp only [hev] at h
        split_ifs at h with h3 h4 h5
        cases hatt : findAttendance db eid U with
        | some att =>
          simp only [hatt] at h
          split_ifs at h with h6
          cases hauto : autoRegister db ev eid U now with
          | error e => simp only [hauto] at h; exact Except.noConfusion h
          | ok db₁ =>
            simp only [hauto] at h
            injection h with h
            rw [← h]
            show db₁.qrcodes = db.qrcodes
            exact autoRegister_qrcodes hauto
        | none =>
          simp only [hatt] at h
          cases hauto : autoRegister db ev eid U now with
          | error e => simp only [hauto] at h; exact Except.noConfusion h
          | ok db₁ =>
            simp only [hauto] at h
            injection h with h
            rw [← h]
            show db₁.qrcodes = db.qrcodes
            exact autoRegister_qrcodes hauto

/-- Everything a successful `generateEventQR` produces: the exact token
string and the exact new QR table (old active rows of the event
deactivated, the new active row appended). -/
theorem generateEventQR_full {ctx : QRCtx} {db : DB} {E : String} {hrs now : Nat}
    {db₁ : DB} {tok : String} (h : generateEventQR ctx db E hrs now = .ok (db₁, tok)) :
    tok = "event-checkin:" ++ E ++ ":" ++ toString now ++ ":"
        ++ ctx.hmac ctx.secret ("event-checkin:" ++ E ++ ":" ++ toString now) ∧
    db₁.users = db.users ∧ db₁.events = db.events ∧
    db₁.registrations = db.registrations ∧ db₁.attendances = db.attendances ∧
    db₁.qrcodes = (db.qrcodes.map
        (fun q => if q.eventId == E && q.isActive then { q with isActive := false } else q))
      ++ [{ eventId := E, qrData := tok, type := "secure",
            expiresAt := now + hrs * 3600000, isActive := true }] := by
  unfold generateEventQR at h
  cases hev : findEvent db E with
  | none => simp only [hev] at h; exact Except.noConfusion h
  | some ev =>
    simp only [hev] at h
    split_ifs at h with h1
    injection h with h
    injection h with h2 h3
    subst h2
    subst h3
    exact ⟨rfl, rfl, rfl, rfl, rfl, rfl⟩

/-- One successful public operation preserves the at-most-one-active-QR
invariant. -/
theorem applyOp_qrInv {ctx : QRCtx} {db db' : DB} {op : Op}
    (hinv : qrInv db) (h : applyOp ctx db op = .ok db') : qrInv db' := by
  cases op with
  | update id u uid role =>
    exact qrInv_congr (updateEvent_qrcodes (h : updateEvent db id u uid role = .ok db')) hinv
  | register E U now =>
    exact qrInv_congr (registerForEvent_qrcodes (h : registerForEvent db E U now = .ok db')) hinv
  | cancel E U now =>
    exact qrInv_congr (cancelRegistration_qrcodes (h : cancelRegistration db E U now = .ok db')) hinv
  | checkInAttendance E U notes now =>
    exact qrInv_congr (attendanceCheckIn_qrcodes (h : attendanceCheckIn db E U notes now = .ok db')) hinv
  | checkInEvent E U notes now =>
    exact qrInv_congr (eventCheckIn_qrcodes (h : eventCheckIn db E U notes now = .ok db')) hinv
  | mark E U now =>
    exact qrInv_congr (markAttendance_qrcodes (h : markAttendance db E U now = .ok db')) hinv
  | checkout E U notes now =>
    exact qrInv_congr (checkOut_qrcodes (h : checkOut db E U notes now = .ok db')) hinv
  | qrGenerate E hrs now =>
    have h' : (match generateEventQR ctx db E hrs now with
      | .error er => (.error er : Except ApiError DB)
      | .ok (db', _) => .ok db') = .ok db' := h
    cases hg : generateEventQR ctx db E hrs now with
    | error er => simp only [hg] at h'; exact Except.noConfusion h'
    | ok p =>
      obtain ⟨pdb, ptok⟩ := p
      simp only [hg] at h'
      injection h' with h'
      obtain ⟨_, _, _, _, _, hq⟩ := generateEventQR_full hg
      subst h'
      intro eid
      rw [hq, List.countP_append]
      by_cases heid : E = eid
      · subst heid
        rw [countP_deactivated]
        simp
      · have hle := countP_map_le db.qrcodes
          (fun q => if q.eventId == E && q.isActive then { q with isActive := false } else q)
          (fun q => q.eventId == eid && q.isActive)
          (by
            intro a ha
            dsimp only at ha ⊢
            by_cases hcond : (a.eventId == E && a.isActive) = true
            · rw [if_pos hcond] at ha
              simp at ha
            · rw [if_neg hcond] at ha
              exact ha)
        have hone : List.countP (fun q => q.eventId == eid && q.isActive)
            [({ eventId := E, qrData := ptok, type := "secure", expiresAt := now + hrs * 3600000, isActive := true } : QRCodeRow)] = 0 := by
          simp [List.countP_cons, heid]
        rw [hone]
        have := hinv eid
        omega
  | qrCheckInToken E t U now =>
    exact qrInv_congr (checkInWithToken_qrcodes (h : checkInWithToken ctx db E t U now = .ok db')) hinv
  | qrSelf q U now =>
    exact qrInv_congr
      (@validateAndCheckIn_qrcodes ctx db db' q U now
        (h : validateAndCheckIn ctx db q U now = .ok db')) hinv
  | qrRevoke E =>
    obtain ⟨_, _, hq⟩ := revokeQRCode_shape (h : revokeQRCode db E = .ok db')
    intro eid
    rw [hq]
    exact le_trans (countP_deactivateFirst_le db.qrcodes E eid) (hinv eid)
  | qrCleanup now =>
    have h' : Except.ok (cleanupExpiredQRCodes db now) = .ok db' := h
    injection h' with h'
    subst h'
    intro eid
    show (db.qrcodes.map _).countP _ ≤ 1
    refine le_trans (countP_map_le db.qrcodes _ _ ?_) (hinv eid)
    intro a ha
    by_cases hcond : (decide (a.expiresAt < now) && a.isActive) = true
    · rw [if_pos hcond] at ha
      simp at ha
    · rw [if_neg hcond] at ha
      exact ha

/-! ## Parsing the generated tokens -/

theorem digitChar_ne_colon (n : Nat) : Nat.digitChar n ≠ ':' := by
  unfold Nat.digitChar
  by_cases h0 : n = 0
  · rw [if_pos h0]; decide
  rw [if_neg h0]
  by_cases h1 : n = 1
  · rw [if_pos h1]; decide
  rw [if_neg h1]
  by_cases h2 : n = 2
  · rw [if_pos h2]; decide
  rw [if_neg h2]
  by_cases h3 : n = 3
  · rw [if_pos h3]; decide
  rw [if_neg h3]
  by_cases h4 : n = 4
  · rw [if_pos h4]; decide
  rw [if_neg h4]
  by_cases h5 : n = 5
  · rw [if_pos h5]; decide
  rw [if_neg h5]
  by_cases h6 : n = 6
  · rw [if_pos h6]; decide
  rw [if_neg h6]
  by_cases h7 : n = 7
  · rw [if_pos h7]; decide
  rw [if_neg h7]
  by_cases h8 : n = 8
  · rw [if_pos h8]; decide
  rw [if_neg h8]
  by_cases h9 : n = 9
  · rw [if_pos h9]; decide
  rw [if_neg h9]
  by_cases h10 : n = 10
  · rw [if_pos h10]; decide
  rw [if_neg h10]
  by_cases h11 : n = 11
  · rw [if_pos h11]; decide
  rw [if_neg h11]
  by_cases h12 : n = 12
  · rw [if_pos h12]; decide
  rw [if_neg h12]
  by_cases h13 : n = 13
  · rw [if_pos h13]; decide
  rw [if_neg h13]
  by_cases h14 : n = 14
  · rw [if_pos h14]; decide
  rw [if_neg h14]
  by_cases h15 : n = 15
  · rw [if_pos h15]; decide
  rw [if_neg h15]
  decide

theorem toDigitsCore_colon (fuel : Nat) : ∀ (n : Nat) (ds : List Char),
    (':' : Char) ∉ ds → (':' : Char) ∉ Nat.toDigitsCore 10 fuel n ds := by
  induction fuel with
  | zero =>
    intro n ds hds
    exact hds
  | succ f ih =>
    intro n ds hds
    have heq : Nat.toDigitsCore 10 (f + 1) n ds
        = if n / 10 = 0 then Nat.digitChar (n % 10) :: ds
          else Nat.toDigitsCore 10 f (n / 10) (Nat.digitChar (n % 10) :: ds) := rfl
    rw [heq]
    have hd : (':' : Char) ∉ (Nat.digitChar (n % 10) :: ds) := by
      intro hmem
      rcases List.mem_cons.mp hmem with hcl | hcl
      · exact digitChar_ne_colon (n % 10) hcl.symm
      · exact hds hcl
    split_ifs with h0
    · exact hd
    · exact ih (n / 10) (Nat.digitChar (n % 10) :: ds) hd

/-- The decimal rendering of a timestamp contains no separator. -/
theorem noColon_toString (n : Nat) : noColon (toString n) := by
  show (':' : Char) ∉ Nat.toDigitsCore 10 (n + 1) n []
  exact toDigitsCore_colon (n + 1) n [] (by decide)

theorem splitAux_no_sep (sep : Char) (l : List Char) (h : sep ∉ l) :
    splitAux sep l = [l] := by
  induction l with
  | nil => rfl
  | cons c cs ih =>
    have hc : ¬ c = sep := by
      intro hcc
      exact h (by rw [hcc]; exact List.mem_cons_self sep cs)
    have hcs : sep ∉ cs := fun hm => h (List.mem_cons_of_mem c hm)
    simp only [splitAux]
    rw [ih hcs, if_neg hc]

theorem splitAux_append_sep (sep : Char) (l1 l2 : List Char) (h : sep ∉ l1) :
    splitAux sep (l1 ++ sep :: l2) = l1 :: splitAux sep l2 := by
  induction l1 with
  | nil =>
    show splitAux sep (sep :: l2) = [] :: splitAux sep l2
    simp only [splitAux]
    exact if_pos trivial
  | cons c cs ih =>
    have hc : ¬ c = sep := by
      intro hcc
      exact h (by rw [hcc]; exact List.mem_cons_self sep cs)
    have hcs : sep ∉ cs := fun hm => h (List.mem_cons_of_mem c hm)
    show splitAux sep (c :: (cs ++ sep :: l2)) = (c :: cs) :: splitAux sep l2
    simp only [splitAux]
    rw [ih hcs, if_neg hc]

/-- JS `token.split(':')` on a four-segment token with separator-free
segments gives exactly the four segments. -/
theorem jsSplit_token (E T sig : String) (hE : noColon E) (hT : noColon T)
    (hs : noColon sig) :
    jsSplit ("event-checkin:" ++ E ++ ":" ++ T ++ ":" ++ sig) ':'
      = ["event-checkin", E, T, sig] := by
  unfold jsSplit
  have hdata : ("event-checkin:" ++ E ++ ":" ++ T ++ ":" ++ sig).data
      = "event-checkin".data ++ ':' :: (E.data ++ ':' :: (T.data ++ ':' :: sig.data)) := by
    simp [List.append_assoc]
  rw [hdata]
  rw [splitAux_append_sep _ _ _ (by decide)]
  rw [splitAux_append_sep _ _ _ hE]
  rw [splitAux_append_sep _ _ _ hT]
  rw [splitAux_no_sep _ _ hs]
  rfl

/-- C7, counterexample: two issuances in the same millisecond produce
byte-identical tokens, so after the second issuance the FIRST token
still validates — the claim's "fails TokenNotFound" is false for it. -/
theorem same_millisecond_reissue_validates :
    generateEventQR ctxA dbC7 "q" 24 100 = .ok (dbC7a, tok7) ∧
    generateEventQR ctxA dbC7a "q" 24 100 = .ok (dbC7b, tok7) ∧
    validateCheckinToken ctxA dbC7b "q" tok7 500 = .ok evC7 ∧
    validateCheckinToken ctxA dbC7b "q" tok7 500 ≠ .error .tokenNotFound := by
  refine ⟨rfl, rfl, rfl, ?_⟩
  have hok : validateCheckinToken ctxA dbC7b "q" tok7 500 = .ok evC7 := rfl
  rw [hok]
  intro hcon
  exact Except.noConfusion hcon

/-- C7, amended: (1) every successful public operation preserves the
at-most-one-active-QR-per-event invariant; (2) an issuance leaves the
event with EXACTLY one active row; (3) when a second issuance produces
a DIFFERENT token string (e.g. at a different millisecond), validating
the first token afterwards fails `tokenNotFound`; two issuances in the
same millisecond produce the same string, for which this fails (see the
counterexample). -/
theorem qr_token_lifecycle :
    (∀ (ctx : QRCtx) (op : Op) (db db' : DB),
      qrInv db → applyOp ctx db op = .ok db' → qrInv db') ∧
    (∀ (ctx : QRCtx) (db db₁ : DB) (E tok : String) (hrs now : Nat),
      generateEventQR ctx db E hrs now = .ok (db₁, tok) →
      db₁.qrcodes.countP (fun q => q.eventId == E && q.isActive) = 1) ∧
    (∀ (ctx : QRCtx) (db db₁ db₂ : DB) (E t₁ t₂ : String) (hrs₁ hrs₂ now₁ now₂ : Nat),
      generateEventQR ctx db E hrs₁ now₁ = .ok (db₁, t₁) →
      generateEventQR ctx db₁ E hrs₂ now₂ = .ok (db₂, t₂) →
      noColon E →
      noColon (ctx.hmac ctx.secret ("event-checkin:" ++ E ++ ":" ++ toString now₁)) →
      t₁ ≠ t₂ →
      ∀ now, validateCheckinToken ctx db₂ E t₁ now = .error .tokenNotFound) := by
  refine ⟨?_, ?_, ?_⟩
  · intro ctx op db db' hinv h
    exact applyOp_qrInv hinv h
  · intro ctx db db₁ E tok hrs now h
    obtain ⟨_, _, _, _, _, hq⟩ := generateEventQR_full h
    rw [hq, List.countP_append, countP_deactivated]
    simp
  · intro ctx db db₁ db₂ E t₁ t₂ hrs₁ hrs₂ now₁ now₂ h1 h2 hE hsig hne now
    obtain ⟨ht1, _, _, _, _, _⟩ := generateEventQR_full h1
    obtain ⟨ht2, _, _, _, _, hq2⟩ := generateEventQR_full h2
    have hparse : jsSplit t₁ ':' = ["event-checkin", E, toString now₁,
        ctx.hmac ctx.secret ("event-checkin:" ++ E ++ ":" ++ toString now₁)] := by
      rw [ht1]
      exact jsSplit_token E (toString now₁) _ hE (noColon_toString now₁) hsig
    have hfind : findActiveQR db₂ E t₁ = none := by
      unfold findActiveQR
      rw [hq2, List.find?_append, find_deactivated_none]
      have hne' : (t₂ == t₁) = false := by
        rw [beq_eq_false_iff_ne]
        exact fun hcc => hne hcc.symm
      simp [List.find?_cons, hne']
    have hcond1 : (decide ((jsSplit t₁ ':').length < 4)
        || (jsSplit t₁ ':')[0]? != some "event-checkin") = false := by
      rw [hparse]
      rfl
    have hcond2 : ((jsSplit t₁ ':')[1]? != some E) = false := by
      rw [hparse]
      simp
    simp only [validateCheckinToken]
    simp only [hcond1, Bool.false_eq_true, if_false]
    simp only [hcond2, Bool.false_eq_true, if_false]
    simp only [hfind]

/-- Witness for the amended C7: the preserved invariant, the
exactly-one count after issuance, and a reissue at millisecond 200
(distinct token) making the millisecond-100 token fail
`tokenNotFound`. -/
theorem qr_token_lifecycle_witness :
    qrInv dbC7a ∧
    dbC7a.qrcodes.countP (fun q => q.eventId == "q" && q.isActive) = 1 ∧
    validateCheckinToken ctxA dbC7c "q" tok7 500 = .error .tokenNotFound := by
  obtain ⟨w1, w2, w3⟩ := qr_token_lifecycle
  refine ⟨?_, ?_, ?_⟩
  · exact w1 ctxA (Op.qrGenerate "q" 24 100) dbC7 dbC7a (fun _ => Nat.zero_le 1) rfl
  · exact w2 ctxA dbC7 dbC7a "q" tok7 24 100 rfl
  · exact w3 ctxA dbC7 dbC7a dbC7c "q" tok7 tok7b 24 24 100 200 rfl rfl
      (by decide) (by decide) (by decide) 500

/-! ## Claim C8: the issue/validate round trip -/

theorem generateEventQR_active {ctx : QRCtx} {db : DB} {E : String} {hrs now : Nat}
    {p : DB × String} (h : generateEventQR ctx db E hrs now = .ok p)
    {ev : Event} (hev : findEvent db E = some ev) : ev.isActive = true := by
  unfold generateEventQR at h
  simp only [hev] at h
  split_ifs at h with h1
  simpa using h1

/-- C8, counterexample: on an event that has not started yet, the
immediate round trip FAILS — `validateCheckinToken` re-checks the event
window and throws `eventNotStarted`. -/
theorem immediate_validate_not_started :
    generateEventQR ctxA dbC8 "f" 24 100 = .ok (dbC8a, tok8) ∧
    validateCheckinToken ctxA dbC8a "f" tok8 100 = .error .eventNotStarted :=
  ⟨rfl, rfl⟩

/-- C8, amended: when the event's window contains `now` (the event is
active, since issuance requires it), `IssueToken` then immediate
`ValidateToken` with the same eventId and the returned token succeeds;
and validating ANY other string as a token for this event — in
particular the token with one signature byte altered — always fails. -/
theorem qr_roundtrip (ctx : QRCtx) (db db₁ : DB) (E t : String) (hrs now : Nat) (ev : Event)
    (h : generateEventQR ctx db E hrs now = .ok (db₁, t))
    (hev : findEvent db E = some ev)
    (hE : noColon E)
    (hsig : noColon (ctx.hmac ctx.secret ("event-checkin:" ++ E ++ ":" ++ toString now)))
    (hsd : ev.startDate ≤ now) (hed : now ≤ ev.endDate) :
    validateCheckinToken ctx db₁ E t now = .ok ev ∧
    (∀ t' now', t' ≠ t → (validateCheckinToken ctx db₁ E t' now').isOk = false) := by
  obtain ⟨ht, _, hEv, _, _, hq⟩ := generateEventQR_full h
  have hact : ev.isActive = true := generateEventQR_active h hev
  have hfind : ∀ t', t' ≠ t → findActiveQR db₁ E t' = none := by
    intro t' hne
    unfold findActiveQR
    rw [hq, List.find?_append, find_deactivated_none]
    have hne' : (t == t') = false := by
      rw [beq_eq_false_iff_ne]
      exact fun hcc => hne hcc.symm
    simp [List.find?_cons, hne']
  refine ⟨?_, ?_⟩
  · have hparse : jsSplit t ':' = ["event-checkin", E, toString now,
        ctx.hmac ctx.secret ("event-checkin:" ++ E ++ ":" ++ toString now)] := by
      rw [ht]
      exact jsSplit_token E (toString now) _ hE (noColon_toString now) hsig
    have hcond1 : (decide ((jsSplit t ':').length < 4)
        || (jsSplit t ':')[0]? != some "event-checkin") = false := by
      rw [hparse]
      rfl
    have hcond2 : ((jsSplit t ':')[1]? != some E) = false := by
      rw [hparse]
      simp
    have hrow : findActiveQR db₁ E t
        = some { eventId := E, qrData := t, type := "secure",
                 expiresAt := now + hrs * 3600000, isActive := true } := by
      unfold findActiveQR
      rw [hq, List.find?_append, find_deactivated_none]
      simp [List.find?_cons]
    have hfe : findEvent db₁ E = some ev := by
      rw [findEvent_congr hEv]
      exact hev
    simp only [validateCheckinToken]
    simp only [hcond1, Bool.false_eq_true, if_false]
    simp only [hcond2, Bool.false_eq_true, if_false]
    simp only [hrow]
    rw [if_neg (by omega : ¬ now + hrs * 3600000 < now)]
    simp only [hfe, hact, Bool.not_true, Bool.false_eq_true, if_false]
    rw [if_neg (by omega : ¬ now < ev.startDate), if_neg (by omega : ¬ ev.endDate < now)]
  · intro t' now' hne
    simp only [validateCheckinToken]
    split_ifs with h1 h2
    · rfl
    · rfl
    · rw [hfind t' hne]
      rfl

/-- Witness for the amended C8: the round trip on the ongoing event
`q` succeeds at millisecond 100, and the same token with its last
signature byte altered (`ab` for `aa`) is rejected. -/
theorem qr_roundtrip_witness :
    validateCheckinToken ctxA dbC7a "q" tok7 100 = .ok evC7 ∧
    (validateCheckinToken ctxA dbC7a "q" "event-checkin:q:100:ab" 100).isOk = false := by
  obtain ⟨w1, w2⟩ := qr_roundtrip ctxA dbC7 dbC7a "q" tok7 24 100 evC7 rfl rfl
    (by decide) (by decide) (by decide) (by decide)
  exact ⟨w1, w2 "event-checkin:q:100:ab" 100 (by decide)⟩

/-! ## Claim C9: consumed tokens have the four-segment structure -/

theorem findActiveQR_some {db : DB} {E tok : String} {q : QRCodeRow}
    (h : findActiveQR db E tok = some q) :
    q ∈ db.qrcodes ∧ q.eventId = E ∧ q.qrData = tok ∧ q.isActive = true := by
  unfold findActiveQR at h
  have hmem := List.mem_of_find?_eq_some h
  have hp := List.find?_some h
  simp only [Bool.and_eq_true, beq_iff_eq] at hp
  exact ⟨hmem, hp.1.1, hp.1.2, hp.2⟩

/-- Under a store of generated rows, a token that validates IS the
canonical four-segment token of the event being checked into. -/
theorem validate_token_structure {ctx : QRCtx} {db : DB} {E tok : String} {now : Nat}
    {ev : Event} (hwf : qrStoreWF ctx db)
    (h : validateCheckinToken ctx db E tok now = .ok ev) :
    ∃ ts : Nat, noColon E ∧
      tok = "event-checkin:" ++ E ++ ":" ++ toString ts ++ ":"
        ++ ctx.hmac ctx.secret ("event-checkin:" ++ E ++ ":" ++ toString ts) ∧
      jsSplit tok ':' = ["event-checkin", E, toString ts,
        ctx.hmac ctx.secret ("event-checkin:" ++ E ++ ":" ++ toString ts)] := by
  have hq : ∃ q, findActiveQR db E tok = some q := by
    simp only [validateCheckinToken] at h
    split_ifs at h with h1 h2
    cases hfq : findActiveQR db E tok with
    | none => simp only [hfq] at h; exact Except.noConfusion h
    | some q => exact ⟨q, rfl⟩
  obtain ⟨q, hfq⟩ := hq
  obtain ⟨hmem, hqE, hqD, _⟩ := findActiveQR_some hfq
  obtain ⟨ts, hcolE, hcolS, hform⟩ := hwf q hmem
  rw [hqE] at hcolE hcolS hform
  refine ⟨ts, hcolE, by rw [← hqD]; exact hform, ?_⟩
  rw [← hqD, hform]
  exact jsSplit_token E (toString ts) _ hcolE (noColon_toString ts) hcolS

/-- C9: every consumer of a check-in token — `validateCheckinToken`,
`checkInWithToken` and the self-service `validateAndCheckIn` — accepts
only tokens with the exact four-segment structure
`event-checkin:<eventId>:<issuedAt>:<digest>` whose eventId segment is
the event being checked into (for the self-service path, the id the
token itself names); anything else is rejected.  Stated for stores
whose rows were produced by `generateEventQR`. -/
theorem token_consumers_reject_malformed (ctx : QRCtx) (db : DB)
    (hwf : qrStoreWF ctx db) :
    (∀ (E tok : String) (now : Nat) (ev : Event),
      validateCheckinToken ctx db E tok now = .ok ev →
      ∃ ts : Nat, noColon E ∧
        tok = "event-checkin:" ++ E ++ ":" ++ toString ts ++ ":"
          ++ ctx.hmac ctx.secret ("event-checkin:" ++ E ++ ":" ++ toString ts) ∧
        jsSplit tok ':' = ["event-checkin", E, toString ts,
          ctx.hmac ctx.secret ("event-checkin:" ++ E ++ ":" ++ toString ts)]) ∧
    (∀ (E tok U : String) (now : Nat) (db' : DB),
      checkInWithToken ctx db E tok U now = .ok db' →
      ∃ ts : Nat, noColon E ∧
        tok = "event-checkin:" ++ E ++ ":" ++ toString ts ++ ":"
          ++ ctx.hmac ctx.secret ("event-checkin:" ++ E ++ ":" ++ toString ts) ∧
        jsSplit tok ':' = ["event-checkin", E, toString ts,
          ctx.hmac ctx.secret ("event-checkin:" ++ E ++ ":" ++ toString ts)]) ∧
    (∀ (qrData U : String) (now : Nat) (db' : DB),
      validateAndCheckIn ctx db qrData U now = .ok db' →
      ∃ (eid : String) (ts : Nat),
        (jsSplit qrData ':')[0]? = some "event-checkin" ∧
        (jsSplit qrData ':')[1]? = some eid ∧ noColon eid ∧
        qrData = "event-checkin:" ++ eid ++ ":" ++ toString ts ++ ":"
          ++ ctx.hmac ctx.secret ("event-checkin:" ++ eid ++ ":" ++ toString ts) ∧
        jsSplit qrData ':' = ["event-checkin", eid, toString ts,
          ctx.hmac ctx.secret ("event-checkin:" ++ eid ++ ":" ++ toString ts)]) := by
  refine ⟨?_, ?_, ?_⟩
  · intro E tok now ev h
    exact validate_token_structure hwf h
  · intro E tok U now db' h
    unfold checkInWithToken at h
    cases hval : validateCheckinToken ctx db E tok now with
    | error e => simp only [hval] at h; exact Except.noConfusion h
    | ok ev0 => exact validate_token_structure hwf hval
  · intro qrData U now db' h
    simp only [validateAndCheckIn] at h
    split_ifs at h with h1
    cases hpq : (jsSplit qrData ':')[1]? with
    | none => simp only [hpq] at h; exact Except.noConfusion h
    | some eid =>
      simp only [hpq] at h
      cases hfq : findActiveQR db eid qrData with
      | none => simp only [hfq] at h; exact Except.noConfusion h
      | some q =>
        obtain ⟨hmem, hqE, hqD, _⟩ := findActiveQR_some hfq
        obtain ⟨ts, hcolE, hcolS, hform⟩ := hwf q hmem
        rw [hqE] at hcolE hcolS hform
        have hsplit : jsSplit qrData ':' = ["event-checkin", eid, toString ts,
            ctx.hmac ctx.secret ("event-checkin:" ++ eid ++ ":" ++ toString ts)] := by
          rw [← hqD, hform]
          exact jsSplit_token eid (toString ts) _ hcolE (noColon_toString ts) hcolS
        refine ⟨eid, ts, ?_, rfl, hcolE, by rw [← hqD]; exact hform, hsplit⟩
        rw [hsplit]
        rfl

/-- Witness for C9: on the well-formed store `dbC9`, the accepted token
decomposes into the canonical four segments with eventId `g`. -/
theorem token_consumers_reject_malformed_witness :
    ∃ ts : Nat, noColon "g" ∧
      "event-checkin:g:7:aa" = "event-checkin:" ++ "g" ++ ":" ++ toString ts ++ ":"
        ++ ctxA.hmac ctxA.secret ("event-checkin:" ++ "g" ++ ":" ++ toString ts) ∧
      jsSplit "event-checkin:g:7:aa" ':' = ["event-checkin", "g", toString ts,
        ctxA.hmac ctxA.secret ("event-checkin:" ++ "g" ++ ":" ++ toString ts)] := by
  have hwf : qrStoreWF ctxA dbC9 := by
    intro q hq
    have hq' : q = ({ eventId := "g", qrData := "event-checkin:g:7:aa", expiresAt := 10000, isActive := true } : QRCodeRow) := by
      simpa [dbC9] using hq
    subst hq'
    exact ⟨7, by decide, by decide, by decide⟩
  exact (token_consumers_reject_malformed ctxA dbC9 hwf).1 "g" "event-checkin:g:7:aa" 100
    { id := "g", startDate := 0, endDate := 1000000 } rfl

/-! ## Claim C10: validation never verifies the signature -/

/-- C10: the three token-consuming operations never apply the HMAC
primitive or read the secret — their results are identical under ANY
two `QRCtx`s over the same store — and a token is accepted purely from
the stored rows, the event state and the literal string: whenever the
format checks pass, an active unexpired row stores exactly this string
and the event is active and in its window, validation succeeds, with no
condition on the signature segment being a genuine digest. -/
theorem validation_ignores_secret :
    (∀ (c₁ c₂ : QRCtx) (db : DB) (E tok : String) (now : Nat),
      validateCheckinToken c₁ db E tok now = validateCheckinToken c₂ db E tok now) ∧
    (∀ (c₁ c₂ : QRCtx) (db : DB) (E tok U : String) (now : Nat),
      checkInWithToken c₁ db E tok U now = checkInWithToken c₂ db E tok U now) ∧
    (∀ (c₁ c₂ : QRCtx) (db : DB) (qrData U : String) (now : Nat),
      validateAndCheckIn c₁ db qrData U now = validateAndCheckIn c₂ db qrData U now) ∧
    (∀ (ctx : QRCtx) (db : DB) (E tok : String) (now : Nat) (ev : Event) (q : QRCodeRow),
      (decide ((jsSplit tok ':').length < 4)
        || (jsSplit tok ':')[0]? != some "event-checkin") = false →
      ((jsSplit tok ':')[1]? != some E) = false →
      findActiveQR db E tok = some q →
      ¬ q.expiresAt < now →
      findEvent db E = some ev →
      ev.isActive = true → ev.startDate ≤ now → now ≤ ev.endDate →
      validateCheckinToken ctx db E tok now = .ok ev) := by
  refine ⟨?_, ?_, ?_, ?_⟩
  · intro c₁ c₂ db E tok now
    rfl
  · intro c₁ c₂ db E tok U now
    rfl
  · intro c₁ c₂ db qrData U now
    rfl
  · intro ctx db E tok now ev q hc1 hc2 hq hexp hev hact hsd hed
    simp only [validateCheckinToken]
    simp only [hc1, Bool.false_eq_true, if_false]
    simp only [hc2, Bool.false_eq_true, if_false]
    simp only [hq]
    rw [if_neg hexp]
    simp only [hev, hact, Bool.not_true, Bool.false_eq_true, if_false]
    rw [if_neg (by omega : ¬ now < ev.startDate), if_neg (by omega : ¬ ev.endDate < now)]

/-- Witness for C10: the forged stored token of `dbC10` — whose
signature segment `zz` is NOT the digest of its payload under `ctxA` —
validates identically under both contexts, and successfully. -/
theorem validation_ignores_secret_witness :
    validateCheckinToken ctxA dbC10 "h" "event-checkin:h:7:zz" 100
      = validateCheckinToken ctxB dbC10 "h" "event-checkin:h:7:zz" 100 ∧
    ctxA.hmac ctxA.secret "event-checkin:h:7" ≠ "zz" ∧
    validateCheckinToken ctxA dbC10 "h" "event-checkin:h:7:zz" 100
      = .ok { id := "h", startDate := 0, endDate := 1000000 } := by
  obtain ⟨w1, w2, w3, w4⟩ := validation_ignores_secret
  refine ⟨w1 ctxA ctxB dbC10 "h" "event-checkin:h:7:zz" 100, by decide, ?_⟩
  exact w4 ctxA dbC10 "h" "event-checkin:h:7:zz" 100
    { id := "h", startDate := 0, endDate := 1000000 }
    ({ eventId := "h", qrData := "event-checkin:h:7:zz", expiresAt := 10000, isActive := true } : QRCodeRow)
    (by decide) (by decide) rfl (by decide) rfl rfl (by decide) (by decide)

end MosqueSpec
